import Mathlib

/-!
Item action dispatch (`src/src/actions.cpp`).

A shallow embedding of the action registry (`Actions::registerEvent`,
`Actions::getAction`), of the usability validator (`Actions::canUse`,
`Actions::canUseFar`, `Action::canExecuteAction`) and of the dispatcher
(`Actions::useItem`, `Actions::useItemEx`, `Actions::internalUseItem`,
`Action::executeUse`).

Conventions.
* `uint16_t` identifiers and coordinates are natural numbers; the only place
  where 16-bit wrap-around matters is the pre-increment of the range loop,
  which is taken modulo `2 ^ 16`.
* An `Action*` stored in a table is never null (`registerEvent` stores the
  event it was handed), so a table maps keys to `Action` values; the field
  `addr` is the identity of the pointee.
* Collaborators that live outside `actions.cpp` (player, item capabilities,
  game world, scripting runtime, configuration, clock) appear as fields of
  `Player`, `Item` and `Env`; every externally visible effect is appended to
  a trace of `Effect`s.
-/

namespace Actions

/-! ## Data model -/

/-- The three built-in native handlers selectable by `Action::loadFunction`. -/
inductive NativeFunction where
  | increaseItemId
  | decreaseItemId
  | enterMarket
  deriving DecidableEq, Repr

/-- The base-class data of an `Action`. `addr` is the object identity,
`scripted` is `Event::m_scripted`, `function` the nullable native function
pointer, `ownErrorHandler` the value of `hasOwnErrorHandler()`. -/
structure Action where
  addr : Nat
  allowFarUse : Bool
  checkFloor : Bool
  checkLineOfSight : Bool
  scripted : Bool
  scriptId : Nat
  function : Option NativeFunction
  ownErrorHandler : Bool
  deriving DecidableEq, Repr

/-- An `ActionUseMap` (`std::map<uint16_t, Action*>`) as an association list
with at most one entry per key. -/
abbrev ActionUseMap := List (Nat × Action)

/-- The member `map.find(key)`, with `none` for `map.end()`. -/
def ActionUseMap.find : ActionUseMap → Nat → Option Action
  | [], _ => none
  | (k, v) :: rest, key => if k = key then some v else ActionUseMap.find rest key

/-- The assignment `map[key] = action`: overwrite the entry of `key` when there
is one, insert a new entry otherwise. -/
def ActionUseMap.assign : ActionUseMap → Nat → Action → ActionUseMap
  | [], key, a => [(key, a)]
  | (k, v) :: rest, key, a =>
    if k = key then (k, a) :: rest else (k, v) :: ActionUseMap.assign rest key a

/-- The registry: the three tables of `class Actions`. -/
structure Registry where
  useItemMap : ActionUseMap
  uniqueItemMap : ActionUseMap
  actionItemMap : ActionUseMap
  deriving DecidableEq, Repr

/-- Which of the three tables a rule addresses. -/
inductive Table where
  | item
  | unique
  | action
  deriving DecidableEq, Repr

/-- The table of a registry selected by a `Table` tag. -/
def Registry.table (r : Registry) : Table → ActionUseMap
  | Table.item => r.useItemMap
  | Table.unique => r.uniqueItemMap
  | Table.action => r.actionItemMap

/-- Replace one table of the registry, leaving the other two alone. -/
def Registry.setTable (r : Registry) (tb : Table) (m : ActionUseMap) : Registry :=
  match tb with
  | Table.item => { r with useItemMap := m }
  | Table.unique => { r with uniqueItemMap := m }
  | Table.action => { r with actionItemMap := m }

/-- The identifiers of an item that `getAction` reads: `getUniqueId()`,
`getActionId()` and `getID()`. -/
structure ItemIds where
  uniqueId : Nat
  actionId : Nat
  id : Nat
  deriving DecidableEq, Repr

/-! ## Handler resolution -/

/-- The function `Actions::getAction`; `getRuneSpell` is `g_spells->getRuneSpell`,
with `none` for a null pointer. -/
def getAction (r : Registry) (getRuneSpell : Nat → Option Action) (item : ItemIds) :
    Option Action :=
  match (if item.uniqueId ≠ 0 then r.uniqueItemMap.find item.uniqueId else none) with
  | some a => some a
  | none =>
    match (if item.actionId ≠ 0 then r.actionItemMap.find item.actionId else none) with
    | some a => some a
    | none =>
      match r.useItemMap.find item.id with
      | some a => some a
      | none =>
        match getRuneSpell item.id with
        | some runeSpell => some runeSpell
        | none => none

/-- The first hit of a sequence of lookups, as the specification words the
precedence rule: the first entry that is not a miss, or none. -/
def firstHit : List (Option Action) → Option Action
  | [] => none
  | some a :: _ => some a
  | none :: rest => firstHit rest

/-- The four lookups of the specification's `resolve`, in precedence order:
unique-id table (only for a non-zero unique id), action-id table (only for a
non-zero action id), item-type table, rune-spell lookup. -/
def resolveTiers (r : Registry) (getRuneSpell : Nat → Option Action) (item : ItemIds) :
    List (Option Action) :=
  [ if item.uniqueId = 0 then none else r.uniqueItemMap.find item.uniqueId,
    if item.actionId = 0 then none else r.actionItemMap.find item.actionId,
    r.useItemMap.find item.id,
    getRuneSpell item.id ]

/-! ## Registration -/

/-- The attributes of a rule node that `registerEvent` reads. A field is `none`
when the attribute is absent and otherwise holds the value that
`pugi::cast<uint16_t>` returned for it. -/
structure XmlNode where
  itemid : Option Nat
  fromid : Option Nat
  toid : Option Nat
  uniqueid : Option Nat
  fromuid : Option Nat
  touid : Option Nat
  actionid : Option Nat
  fromaid : Option Nat
  toaid : Option Nat
  deriving DecidableEq, Repr

/-- A node without any of the attributes. -/
def XmlNode.empty : XmlNode :=
  ⟨none, none, none, none, none, none, none, none, none⟩

/-- The single-id descriptor of key `k` for a table: `itemid`, `uniqueid` or
`actionid` and nothing else. -/
def singleNode : Table → Nat → XmlNode
  | Table.item, k => { XmlNode.empty with itemid := some k }
  | Table.unique, k => { XmlNode.empty with uniqueid := some k }
  | Table.action, k => { XmlNode.empty with actionid := some k }

/-- The range descriptor `fromId..toId` for a table: `fromid`/`toid`,
`fromuid`/`touid` or `fromaid`/`toaid` and nothing else. -/
def rangeNode : Table → Nat → Nat → XmlNode
  | Table.item, f, t => { XmlNode.empty with fromid := some f, toid := some t }
  | Table.unique, f, t => { XmlNode.empty with fromuid := some f, touid := some t }
  | Table.action, f, t => { XmlNode.empty with fromaid := some f, toaid := some t }

/-- The lines `registerEvent` writes to standard output. -/
inductive Diagnostic where
  | duplicate (tb : Table) (id : Nat)
  | duplicateInRange (tb : Table) (id fromId toId : Nat)
  | missingTo (tb : Table) (fromValue : Nat)
  deriving DecidableEq, Repr

/-- What a call of `registerEvent` leaves behind: its return value, the
registry afterwards and the diagnostics written, in order. -/
structure RegisterResult where
  ok : Bool
  registry : Registry
  diagnostics : List Diagnostic
  deriving DecidableEq, Repr

/-- The single-id branch of `registerEvent` (`itemid`, `uniqueid`, `actionid`). -/
def registerSingle (r : Registry) (tb : Table) (action : Action) (id : Nat) :
    RegisterResult :=
  if ((r.table tb).find id).isSome then
    ⟨false, r, [Diagnostic.duplicate tb id]⟩
  else
    ⟨true, r.setTable tb ((r.table tb).assign id action), []⟩

/-- The loop `while (++iterId <= toId) { ... }` of the range branches. The
counter is a `uint16_t`, so the increment is taken modulo `2 ^ 16`. Every
evaluation of the loop condition uses one unit of fuel; `none` means that the
fuel ran out before the loop was left. -/
def rangeLoop (tb : Table) (action : Action) (fromId toId : Nat) :
    Nat → ActionUseMap → Nat → Bool → List Diagnostic →
      Option (ActionUseMap × Bool × List Diagnostic)
  | 0, _, _, _, _ => none
  | fuel + 1, m, iterId, success, out =>
    if (iterId + 1) % 65536 ≤ toId then
      if (m.find ((iterId + 1) % 65536)).isSome then
        rangeLoop tb action fromId toId fuel m ((iterId + 1) % 65536) success
          (out ++ [Diagnostic.duplicateInRange tb ((iterId + 1) % 65536) fromId toId])
      else
        rangeLoop tb action fromId toId fuel (m.assign ((iterId + 1) % 65536) action)
          ((iterId + 1) % 65536) true out
    else
      some (m, success, out)

/-- The range branch of `registerEvent` on one table: the first id is
attempted before the loop, the others inside it. -/
def registerRangeMap (fuel : Nat) (tb : Table) (action : Action) (fromId toId : Nat)
    (m : ActionUseMap) : Option (ActionUseMap × Bool × List Diagnostic) :=
  if (m.find fromId).isSome then
    rangeLoop tb action fromId toId fuel m fromId false
      [Diagnostic.duplicateInRange tb fromId fromId toId]
  else
    rangeLoop tb action fromId toId fuel (m.assign fromId action) fromId true []

/-- The range branch of `registerEvent` (`fromid`, `fromuid`, `fromaid` with the
matching end attribute present). -/
def registerRange (fuel : Nat) (r : Registry) (tb : Table) (action : Action)
    (fromId toId : Nat) : Option RegisterResult :=
  match registerRangeMap fuel tb action fromId toId (r.table tb) with
  | some (m, success, out) => some ⟨success, r.setTable tb m, out⟩
  | none => none

/-- The function `Actions::registerEvent`. The attributes are tried in the order
of the source; `none` means that a range loop did not finish within `fuel`
evaluations of its condition. -/
def registerEvent (fuel : Nat) (r : Registry) (action : Action) (node : XmlNode) :
    Option RegisterResult :=
  match node.itemid with
  | some id => some (registerSingle r Table.item action id)
  | none =>
  match node.fromid with
  | some fromId =>
    match node.toid with
    | some toId => registerRange fuel r Table.item action fromId toId
    | none => some ⟨false, r, [Diagnostic.missingTo Table.item fromId]⟩
  | none =>
  match node.uniqueid with
  | some uid => some (registerSingle r Table.unique action uid)
  | none =>
  match node.fromuid with
  | some fromUid =>
    match node.touid with
    | some toUid => registerRange fuel r Table.unique action fromUid toUid
    | none => some ⟨false, r, [Diagnostic.missingTo Table.unique fromUid]⟩
  | none =>
  match node.actionid with
  | some aid => some (registerSingle r Table.action action aid)
  | none =>
  match node.fromaid with
  | some fromAid =>
    match node.toaid with
    | some toAid => registerRange fuel r Table.action action fromAid toAid
    | none => some ⟨false, r, [Diagnostic.missingTo Table.action fromAid]⟩
  | none => some ⟨false, r, []⟩

/-- The ids of `fromId..toId` in increasing order. -/
def idsInRange (fromId toId : Nat) : List Nat :=
  List.range' fromId (toId + 1 - fromId)

/-! ## Usability validator -/

/-- A world coordinate: `x` and `y` are `uint16_t`, `z` is `uint8_t`. -/
structure Position where
  x : Nat
  y : Nat
  z : Nat
  deriving DecidableEq, Repr

/-- A position together with the index inside the stack of the tile. -/
structure PositionEx where
  pos : Position
  stackpos : Int
  deriving DecidableEq, Repr

/-- The outcome codes of `enum ReturnValue` that `actions.cpp` produces. -/
inductive ReturnValue where
  | RETURNVALUE_NOERROR
  | RETURNVALUE_TOOFARAWAY
  | RETURNVALUE_FIRSTGOUPSTAIRS
  | RETURNVALUE_FIRSTGODOWNSTAIRS
  | RETURNVALUE_CANNOTTHROW
  | RETURNVALUE_CANNOTUSETHISOBJECT
  | RETURNVALUE_YOUARENOTTHEOWNER
  deriving DecidableEq, Repr

/-- The distance between two coordinates of one axis. -/
def axisDistance (a b : Nat) : Nat :=
  Int.natAbs ((a : Int) - (b : Int))

/-- Modelled from the spec: `Position::areInRange<deltax, deltay>` is declared in
`position.h`, which is not part of the sources at hand. The specification
describes it as "within a 1-tile (8-neighborhood) radius" for `<1, 1>` and as
the "extended radius (7 tiles horizontally, 5 vertically)" for `<7, 5>`: the
distance along x is at most `deltax` and the distance along y at most `deltay`. -/
def areInRange (deltax deltay : Nat) (p1 p2 : Position) : Bool :=
  decide (axisDistance p1.x p2.x ≤ deltax) && decide (axisDistance p1.y p2.y ≤ deltay)

/-- The function `Actions::canUse(const Player*, const Position&)`; `playerPos`
is `player->getPosition()`. -/
def canUse (playerPos pos : Position) : ReturnValue :=
  if pos.x ≠ 0xFFFF then
    if playerPos.z ≠ pos.z then
      if playerPos.z > pos.z then ReturnValue.RETURNVALUE_FIRSTGOUPSTAIRS
      else ReturnValue.RETURNVALUE_FIRSTGODOWNSTAIRS
    else if !areInRange 1 1 playerPos pos then
      ReturnValue.RETURNVALUE_TOOFARAWAY
    else
      ReturnValue.RETURNVALUE_NOERROR
  else
    ReturnValue.RETURNVALUE_NOERROR

/-- One query `g_game.canThrowObjectTo(fromPos, toPos)` of the line-of-sight
collaborator. -/
structure SightQuery where
  fromPos : Position
  toPos : Position
  deriving DecidableEq, Repr

/-- A verdict of the validator together with the line-of-sight queries that
were made to reach it, in order. -/
structure Verdict where
  ret : ReturnValue
  queries : List SightQuery
  deriving DecidableEq, Repr

/-- The function `Actions::canUseFar`; `creaturePos` is `creature->getPosition()`
and `canThrowObjectTo` is `g_game.canThrowObjectTo`. The `&&` of the source is
short-circuit, so the collaborator is queried only when `checkLineOfSight`
holds. -/
def canUseFar (canThrowObjectTo : Position → Position → Bool) (creaturePos toPos : Position)
    (checkLineOfSight checkFloor : Bool) : Verdict :=
  if toPos.x = 0xFFFF then
    ⟨ReturnValue.RETURNVALUE_NOERROR, []⟩
  else if checkFloor && decide (creaturePos.z ≠ toPos.z) then
    ⟨if creaturePos.z > toPos.z then ReturnValue.RETURNVALUE_FIRSTGOUPSTAIRS
      else ReturnValue.RETURNVALUE_FIRSTGODOWNSTAIRS, []⟩
  else if !areInRange 7 5 toPos creaturePos then
    ⟨ReturnValue.RETURNVALUE_TOOFARAWAY, []⟩
  else if checkLineOfSight then
    if !canThrowObjectTo creaturePos toPos then
      ⟨ReturnValue.RETURNVALUE_CANNOTTHROW, [⟨creaturePos, toPos⟩]⟩
    else
      ⟨ReturnValue.RETURNVALUE_NOERROR, [⟨creaturePos, toPos⟩]⟩
  else
    ⟨ReturnValue.RETURNVALUE_NOERROR, []⟩

/-- The function `Action::canExecuteAction`, with the queries of `canUseFar`
passed on (`canUse` makes none). -/
def canExecuteAction (canThrowObjectTo : Position → Position → Bool) (action : Action)
    (playerPos toPos : Position) : Verdict :=
  if !action.allowFarUse then
    ⟨canUse playerPos toPos, []⟩
  else
    canUseFar canThrowObjectTo playerPos toPos action.checkLineOfSight action.checkFloor

/-! ## Collaborators of the dispatcher

`player.h`, `item.h`, `container.h`, `bed.h`, `game.h`, `luascript.h` and
`configmanager.h` are not part of the sources at hand. The state they keep is
modelled by the fields below and their member functions by the definitions
marked as modelled from the specification. -/

/-- The actor state that the dispatcher reads and writes through `Player`. -/
structure Player where
  guid : Nat
  position : Position
  nextAction : Int
  nextActionTask : Option Nat
  listWalkDir : List Nat
  openContainers : List (Nat × Nat)
  bedItem : Option Nat
  lastDepotId : Int
  writeItem : Option Nat
  maxWriteLen : Nat
  deriving DecidableEq, Repr

/-- The door view of an item; `canUse` is the access check `Door::canUse`. -/
structure Door where
  canUse : Player → Bool

/-- The bed view of an item; `canUse` is `BedItem::canUse` and `trySleep` the
result of `BedItem::trySleep`. -/
structure BedItem where
  addr : Nat
  canUse : Player → Bool
  trySleep : Player → Bool

/-- The depot-locker view of a container. -/
structure DepotLocker where
  depotId : Nat
  parentTile : Nat
  deriving DecidableEq, Repr

/-- The container view of an item. -/
structure Container where
  addr : Nat
  depotLocker : Option DepotLocker
  corpseOwner : Nat
  deriving DecidableEq, Repr

/-- An item as the dispatcher sees it: identity, identifiers, names, the index
`getParent()->getThingIndex(item)` and the capability views. -/
structure Item where
  addr : Nat
  ids : ItemIds
  name : String
  pluralName : String
  thingIndex : Int
  door : Option Door
  bed : Option BedItem
  container : Option Container
  readable : Bool
  canWriteText : Bool
  maxWriteLength : Nat

/-- The arguments pushed for the script callback `onUse`, in order: player, item,
source position with stack position, target thing (`none` for nil), target
position with stack position, hotkey flag. -/
structure ScriptCall where
  scriptId : Nat
  player : Nat
  item : Nat
  fromPos : Position
  fromStackpos : Int
  target : Option Nat
  toPos : Position
  toStackpos : Int
  isHotkey : Bool
  deriving DecidableEq, Repr

/-- The collaborators of one dispatcher call: the clock, the two configured
delays, the rune-spell lookup, the line-of-sight query, the item-type table's
`showCount`, the actor's `getItemTypeCount`, `canOpenCorpse` and
`getDepotLocker`, and the scripting runtime (slot reservation, thing lookup,
callback result). -/
structure Env where
  OTSYS_TIME : Int
  ACTIONS_DELAY_INTERVAL : Int
  EX_ACTIONS_DELAY_INTERVAL : Int
  getRuneSpell : Nat → Option Action
  canThrowObjectTo : Position → Position → Bool
  showCount : Nat → Bool
  getItemTypeCount : Nat → Nat
  canOpenCorpse : Nat → Bool
  getDepotLocker : Nat → Nat
  reserveScriptEnv : Bool
  internalGetThing : PositionEx → Option Nat
  callFunction : ScriptCall → Bool

/-- The externally visible steps of a dispatcher call, in the order they happen. -/
inductive Effect where
  | sightQuery (q : SightQuery)
  | sendCancelMessage (ret : ReturnValue)
  | sendTextMessage (text : String)
  | callStackOverflow
  | callFunction (call : ScriptCall)
  | nativeCall (f : NativeFunction) (player item : Nat) (fromPos toPos : PositionEx)
      (extendedUse isHotkey : Bool)
  | transformItem (item newId : Nat)
  | startDecay (item newId : Nat)
  | sendMarketEnter (depotId : Int)
  | trySleep (bed : Nat)
  | sendOfflineTrainingDialog
  | setParent (locker tile : Nat)
  | onCloseContainer (container : Nat)
  | onSendContainer (container : Nat)
  | sendTextWindow (item maxlen : Nat) (canWrite : Bool)
  deriving DecidableEq, Repr

/-- The result of a dispatcher function: its return value, the actor state
afterwards and the effects it caused. -/
structure Run (α : Type) where
  val : α
  player : Player
  trace : List Effect

/-- Modelled from the spec: `Player::canDoAction` is declared in `player.h`; the
gate is "true iff the current time ≥ the actor's stored next-allowed-action
timestamp". -/
def canDoAction (player : Player) (now : Int) : Bool :=
  decide (player.nextAction ≤ now)

/-- Modelled from the spec: `Player::setNextActionTask` is declared in
`player.h`; with a null task "any previously queued delayed-action task for the
actor is cancelled". -/
def setNextActionTask (player : Player) (task : Option Nat) : Player :=
  { player with nextActionTask := task }

/-- Modelled from the spec: `Player::setNextAction` is declared in `player.h`;
it "sets the actor's next-allowed-action time" to the given time. -/
def setNextAction (player : Player) (time : Int) : Player :=
  { player with nextAction := time }

/-- Modelled from the spec: `Creature::stopWalk` is declared in `creature.h`; it
"cancels any queued walk". -/
def stopWalk (player : Player) : Player :=
  { player with listWalkDir := [] }

/-- Modelled from the spec: `Player::getContainerID` is declared in `player.h`;
the slot under which the actor "already has this container open", and -1 when
it is not open. -/
def getContainerID (player : Player) (container : Nat) : Int :=
  match player.openContainers.find? (fun e => e.2 == container) with
  | some e => (e.1 : Int)
  | none => -1

/-- Modelled from the spec: `Player::closeContainer` is declared in `player.h`;
the slot is removed from the actor's open containers. -/
def closeContainer (player : Player) (cid : Nat) : Player :=
  { player with openContainers := player.openContainers.filter (fun e => e.1 != cid) }

/-- Modelled from the spec: `Player::addContainer` is declared in `player.h`; the
container is opened "at the given inventory slot index" and recorded as open. -/
def addContainer (player : Player) (cid : Nat) (container : Nat) : Player :=
  { player with
    openContainers := (cid, container) :: player.openContainers.filter (fun e => e.1 != cid) }

/-- Modelled from the spec: `Player::setBedItem` is declared in `player.h`; it
"binds the bed to the actor". -/
def setBedItem (player : Player) (bed : Nat) : Player :=
  { player with bedItem := some bed }

/-- Modelled from the spec: `Player::setLastDepotId` is declared in `player.h`;
it "remembers the actor's last-used depot id". -/
def setLastDepotId (player : Player) (depotId : Nat) : Player :=
  { player with lastDepotId := (depotId : Int) }

/-- Modelled from the spec: `Player::setWriteItem` is declared in `player.h`; the
text window is "bound to the item's max length". -/
def setWriteItem (player : Player) (item : Option Nat) (maxWriteLen : Nat) : Player :=
  { player with writeItem := item, maxWriteLen := maxWriteLen }

/-! ## Execution dispatcher

A script callback and a native handler are external code: the dispatcher
consumes them as "invoke with these arguments, get success or failure". The
invocation is recorded in the trace and its boolean result is read from the
collaborators; the actor fields kept by `Player` are written only by the
dispatcher itself and by `enterMarket`, which writes none. -/

/-- The function `Actions::showUseHotkeyMessage`. -/
def showUseHotkeyMessage (env : Env) (item : Item) (count : Nat) : List Effect :=
  if !env.showCount item.ids.id then
    [Effect.sendTextMessage ("Using one of " ++ item.name ++ "...")]
  else if count = 1 then
    [Effect.sendTextMessage ("Using the last " ++ item.name ++ "...")]
  else
    [Effect.sendTextMessage
      ("Using one of " ++ toString count ++ " " ++ item.pluralName ++ "...")]

/-- The function `Action::increaseItemId`: the item is transformed to the next
type id (a `uint16_t` argument) and decay is started on the result. -/
def increaseItemId (item : Item) : Bool × List Effect :=
  (true, [Effect.transformItem item.addr ((item.ids.id + 1) % 65536),
    Effect.startDecay item.addr ((item.ids.id + 1) % 65536)])

/-- The function `Action::decreaseItemId`: the item is transformed to the previous
type id (a `uint16_t` argument) and decay is started on the result. -/
def decreaseItemId (item : Item) : Bool × List Effect :=
  (true, [Effect.transformItem item.addr ((item.ids.id + 65535) % 65536),
    Effect.startDecay item.addr ((item.ids.id + 65535) % 65536)])

/-- The function `Action::enterMarket`. -/
def enterMarket (player : Player) : Bool × List Effect :=
  if player.lastDepotId = -1 then (false, [])
  else (true, [Effect.sendMarketEnter player.lastDepotId])

/-- The call `action->function(player, item, fromPos, toPos, extendedUse,
isHotkey)` through the native function pointer. -/
def callNative (f : NativeFunction) (player : Player) (item : Item)
    (fromPos toPos : PositionEx) (extendedUse isHotkey : Bool) : Bool × List Effect :=
  let body :=
    match f with
    | NativeFunction.increaseItemId => increaseItemId item
    | NativeFunction.decreaseItemId => decreaseItemId item
    | NativeFunction.enterMarket => enterMarket player
  (body.1,
    Effect.nativeCall f player.guid item.addr fromPos toPos extendedUse isHotkey :: body.2)

/-- The function `Action::executeUse`. The seventh parameter of the source (a
creature id) is unnamed and unused. -/
def executeUse (env : Env) (action : Action) (player : Player) (item : Item)
    (fromPos toPos : PositionEx) (extendedUse : Bool) (isHotkey : Bool) :
    Bool × List Effect :=
  if !env.reserveScriptEnv then
    (false, [Effect.callStackOverflow])
  else
    let call : ScriptCall :=
      match env.internalGetThing toPos with
      | some thing =>
        if !extendedUse || thing != item.addr then
          ⟨action.scriptId, player.guid, item.addr, fromPos.pos, fromPos.stackpos,
            some thing, toPos.pos, toPos.stackpos, isHotkey⟩
        else
          ⟨action.scriptId, player.guid, item.addr, fromPos.pos, fromPos.stackpos,
            none, ⟨0, 0, 0⟩, 0, isHotkey⟩
      | none =>
        ⟨action.scriptId, player.guid, item.addr, fromPos.pos, fromPos.stackpos,
          none, ⟨0, 0, 0⟩, 0, isHotkey⟩
    (env.callFunction call, [Effect.callFunction call])

/-- The handler stage of `Actions::internalUseItem` (the block after the door
check): whether a resolved handler ran and returned true, and its effects. -/
def invokeInline (env : Env) (r : Registry) (player : Player) (pos : Position)
    (item : Item) (isHotkey : Bool) : Bool × List Effect :=
  match getAction r env.getRuneSpell item.ids with
  | some action =>
    if action.scripted then
      executeUse env action player item ⟨pos, item.thingIndex⟩ ⟨pos, item.thingIndex⟩
        false isHotkey
    else
      match action.function with
      | some f =>
        callNative f player item ⟨pos, item.thingIndex⟩ ⟨pos, item.thingIndex⟩ false isHotkey
      | none => (false, [])
  | none => (false, [])

/-- The container branch of `Actions::internalUseItem`. -/
def useContainer (env : Env) (player : Player) (index : Nat) (container : Container) :
    Run ReturnValue :=
  let opened : Nat × Player × List Effect :=
    match container.depotLocker with
    | some depot =>
      (env.getDepotLocker depot.depotId, setLastDepotId player depot.depotId,
        [Effect.setParent (env.getDepotLocker depot.depotId) depot.parentTile])
    | none => (container.addr, player, [])
  if container.corpseOwner ≠ 0 ∧ env.canOpenCorpse container.corpseOwner = false then
    ⟨ReturnValue.RETURNVALUE_YOUARENOTTHEOWNER, opened.2.1, opened.2.2⟩
  else if getContainerID opened.2.1 opened.1 ≠ -1 then
    ⟨ReturnValue.RETURNVALUE_NOERROR,
      closeContainer opened.2.1 (getContainerID opened.2.1 opened.1).toNat,
      opened.2.2 ++ [Effect.onCloseContainer opened.1]⟩
  else
    ⟨ReturnValue.RETURNVALUE_NOERROR, addContainer opened.2.1 index opened.1,
      opened.2.2 ++ [Effect.onSendContainer opened.1]⟩

/-- The built-in rules of `Actions::internalUseItem` that follow the handler
stage: bed, container, readable item, and "cannot use this object" otherwise. -/
def builtinUse (env : Env) (player : Player) (index : Nat) (item : Item) : Run ReturnValue :=
  match item.bed with
  | some bed =>
    if !bed.canUse player then
      ⟨ReturnValue.RETURNVALUE_CANNOTUSETHISOBJECT, player, []⟩
    else if bed.trySleep player then
      ⟨ReturnValue.RETURNVALUE_NOERROR, setBedItem player bed.addr,
        [Effect.trySleep bed.addr, Effect.sendOfflineTrainingDialog]⟩
    else
      ⟨ReturnValue.RETURNVALUE_NOERROR, player, [Effect.trySleep bed.addr]⟩
  | none =>
    match item.container with
    | some container => useContainer env player index container
    | none =>
      if item.readable then
        if item.canWriteText then
          ⟨ReturnValue.RETURNVALUE_NOERROR,
            setWriteItem player (some item.addr) item.maxWriteLength,
            [Effect.sendTextWindow item.addr item.maxWriteLength true]⟩
        else
          ⟨ReturnValue.RETURNVALUE_NOERROR, setWriteItem player none 0,
            [Effect.sendTextWindow item.addr 0 false]⟩
      else
        ⟨ReturnValue.RETURNVALUE_CANNOTUSETHISOBJECT, player, []⟩

/-- The function `Actions::internalUseItem`. -/
def internalUseItem (env : Env) (r : Registry) (player : Player) (pos : Position)
    (index : Nat) (item : Item) (isHotkey : Bool) : Run ReturnValue :=
  if (match item.door with
      | some door => !door.canUse player
      | none => false) then
    ⟨ReturnValue.RETURNVALUE_CANNOTUSETHISOBJECT, player, []⟩
  else if (invokeInline env r player pos item isHotkey).1 then
    ⟨ReturnValue.RETURNVALUE_NOERROR, player, (invokeInline env r player pos item isHotkey).2⟩
  else
    ⟨(builtinUse env player index item).val, (builtinUse env player index item).player,
      (invokeInline env r player pos item isHotkey).2 ++ (builtinUse env player index item).trace⟩

/-- The first three statements after the gate of `useItem` and `useItemEx`: the
queued task is dropped, the cooldown is set and the walk is stopped. -/
def chargeCooldown (player : Player) (now delay : Int) : Player :=
  stopWalk (setNextAction (setNextActionTask player none) (now + delay))

/-- The function `Actions::useItem`. -/
def useItem (env : Env) (r : Registry) (player : Player) (pos : Position) (index : Nat)
    (item : Item) (isHotkey : Bool) : Run Bool :=
  if !canDoAction player env.OTSYS_TIME then
    ⟨false, player, []⟩
  else
    let p1 := chargeCooldown player env.OTSYS_TIME env.ACTIONS_DELAY_INTERVAL
    let hot := if isHotkey then
        showUseHotkeyMessage env item (env.getItemTypeCount item.ids.id) else []
    let res := internalUseItem env r p1 pos index item isHotkey
    if res.val ≠ ReturnValue.RETURNVALUE_NOERROR then
      ⟨false, res.player, hot ++ res.trace ++ [Effect.sendCancelMessage res.val]⟩
    else
      ⟨true, res.player, hot ++ res.trace⟩

/-- The function `Actions::useItemEx`; `creatureId` is handed to `executeUse`,
which ignores it. -/
def useItemEx (env : Env) (r : Registry) (player : Player) (fromPos toPos : Position)
    (toStackPos : Nat) (item : Item) (isHotkey : Bool) (_creatureId : Nat) : Run Bool :=
  if !canDoAction player env.OTSYS_TIME then
    ⟨false, player, []⟩
  else
    let p1 := chargeCooldown player env.OTSYS_TIME env.EX_ACTIONS_DELAY_INTERVAL
    match getAction r env.getRuneSpell item.ids with
    | none =>
      ⟨false, p1, [Effect.sendCancelMessage ReturnValue.RETURNVALUE_CANNOTUSETHISOBJECT]⟩
    | some action =>
      let ret := canExecuteAction env.canThrowObjectTo action p1.position toPos
      let checked := ret.queries.map Effect.sightQuery
      if ret.ret ≠ ReturnValue.RETURNVALUE_NOERROR then
        ⟨false, p1, checked ++ [Effect.sendCancelMessage ret.ret]⟩
      else
        let hot := if isHotkey then
            showUseHotkeyMessage env item (env.getItemTypeCount item.ids.id) else []
        let used := executeUse env action p1 item ⟨fromPos, item.thingIndex⟩
          ⟨toPos, (toStackPos : Int)⟩ true isHotkey
        if !used.1 then
          if !action.ownErrorHandler then
            ⟨false, p1, checked ++ hot ++ used.2 ++
              [Effect.sendCancelMessage ReturnValue.RETURNVALUE_CANNOTUSETHISOBJECT]⟩
          else
            ⟨false, p1, checked ++ hot ++ used.2⟩
        else
          ⟨true, p1, checked ++ hot ++ used.2⟩

/-! ## Teardown -/

/-- The `Action*` values held by the slots of a table, one address per slot. -/
def ActionUseMap.addrs (m : ActionUseMap) : List Nat :=
  m.map (fun e => e.2.addr)

/-- The function `Actions::clearMap`: the pointers of the table are collected
in a set, the table is emptied and every pointer of the set is deleted. The
result is the emptied table and the deleted addresses; the order in which an
unordered set is walked is not specified and the list fixes one. -/
def clearMap (m : ActionUseMap) : ActionUseMap × List Nat :=
  ([], m.addrs.dedup)

/-- What `Actions::clear` leaves behind: the registry and every `delete` that
was executed, in order. -/
structure ClearResult where
  registry : Registry
  deleted : List Nat
  deriving DecidableEq, Repr

/-- The function `Actions::clear`: `clearMap` on the item-type table, then on the
unique-id table, then on the action-id table. -/
def clear (r : Registry) : ClearResult :=
  ⟨⟨(clearMap r.useItemMap).1, (clearMap r.uniqueItemMap).1, (clearMap r.actionItemMap).1⟩,
    (clearMap r.useItemMap).2 ++ (clearMap r.uniqueItemMap).2 ++ (clearMap r.actionItemMap).2⟩

/-- An address is referenced by the registry when some slot of some table
holds it. -/
def Registry.references (r : Registry) (addr : Nat) : Prop :=
  ∃ tb : Table, addr ∈ (r.table tb).addrs

/-- The registries that arise from the empty registry by calls of
`registerEvent` that return, each made with a newly created action: an action
whose address no table slot holds yet. -/
inductive Reachable : Registry → Prop where
  | empty : Reachable ⟨[], [], []⟩
  | step (fuel : Nat) (r : Registry) (action : Action) (node : XmlNode)
      (res : RegisterResult) :
      Reachable r → (∀ tb : Table, action.addr ∉ (r.table tb).addrs) →
      registerEvent fuel r action node = some res → Reachable res.registry

/-- No address is held by slots of two different tables. -/
def Registry.separated (r : Registry) : Prop :=
  ∀ (x : Nat) (tb1 tb2 : Table),
    x ∈ (r.table tb1).addrs → x ∈ (r.table tb2).addrs → tb1 = tb2

/-! ## Trace predicates -/

/-- The effects of the built-in rules of `internalUseItem`: bed (sleep attempt,
training dialog), depot substitution, container close and open, text window. -/
def Effect.isBuiltin : Effect → Bool
  | Effect.trySleep _ => true
  | Effect.sendOfflineTrainingDialog => true
  | Effect.setParent _ _ => true
  | Effect.onCloseContainer _ => true
  | Effect.onSendContainer _ => true
  | Effect.sendTextWindow _ _ _ => true
  | _ => false

/-- The effects that invoke a handler: a script callback or a native call. -/
def Effect.isInvocation : Effect → Bool
  | Effect.callFunction _ => true
  | Effect.nativeCall _ _ _ _ _ _ _ => true
  | _ => false

/-- The cancel messages of a trace, in order. -/
def cancelMessages : List Effect → List ReturnValue
  | [] => []
  | Effect.sendCancelMessage ret :: rest => ret :: cancelMessages rest
  | _ :: rest => cancelMessages rest

/-- The door gate of `internalUseItem`: the item is a door and its access check
fails for the actor. -/
def doorDenied (player : Player) (item : Item) : Bool :=
  match item.door with
  | some door => !door.canUse player
  | none => false

/-- The bookkeeping invariant of the actor's open containers: a container is
open under one slot at most. It holds when no container is open, and every
`useItem` and `useItemEx` call keeps it: a container is opened only when
`getContainerID` reports that it is not open. -/
def oneSlotPerContainer (player : Player) : Prop :=
  ∀ e1 ∈ player.openContainers, ∀ e2 ∈ player.openContainers, e1.2 = e2.2 → e1.1 = e2.1

/-- A scripted action at address `n` with the constructor's flag values. -/
def sampleAction (n : Nat) : Action :=
  ⟨n, false, true, true, true, n, none, false⟩

/-- A registry whose only entry is action id 7. -/
def sampleRegistry : Registry :=
  ⟨[], [], [(7, sampleAction 1)]⟩

/-- The registry without any entry. -/
def emptyRegistry : Registry :=
  ⟨[], [], []⟩

/-- An item with unique id 5, action id 7 and type id 100. -/
def sampleItemIds : ItemIds :=
  ⟨5, 7, 100⟩

/-- An actor standing at (100, 100, 7) that may act from time 0 on. -/
def samplePlayer : Player :=
  ⟨1, ⟨100, 100, 7⟩, 0, some 9, [1, 2], [], none, -1, none, 0⟩

/-- A plain item of type 100 without identifiers and without capabilities. -/
def sampleItem : Item :=
  ⟨50, ⟨0, 0, 100⟩, "rope", "ropes", 1, none, none, none, false, false, 0⟩

/-- Collaborators at time `now` with an adjacent-use delay of 500 and an
extended-use delay of 1000, no rune spells, a blocked line of sight and a
script runtime whose callbacks fail. -/
def sampleEnv (now : Int) : Env :=
  ⟨now, 500, 1000, fun _ => none, fun _ _ => false, fun _ => false, fun _ => 1,
    fun _ => false, fun _ => 0, true, fun _ => none, fun _ => false⟩

/-- A registry whose item-type table maps type 100 to an adjacent-use script. -/
def sampleItemRegistry : Registry :=
  ⟨[(100, sampleAction 3)], [], []⟩

/-- A chest of type 100: a container at address 70 that is neither a depot
locker nor a corpse. -/
def sampleChest : Item :=
  ⟨70, ⟨0, 0, 100⟩, "chest", "chests", 1, none, none, some ⟨70, none, 0⟩, false, false, 0⟩

/-- Collaborators as in `sampleEnv`, with a script runtime whose callbacks
succeed. -/
def sampleEnvOk (now : Int) : Env :=
  ⟨now, 500, 1000, fun _ => none, fun _ _ => false, fun _ => false, fun _ => 1,
    fun _ => false, fun _ => 0, true, fun _ => none, fun _ => true⟩

/-- Collaborators as in `sampleEnvOk`, with a world in which every position
resolves to the thing at address 50 (the address of `sampleItem`). -/
def sampleEnvSelf (now : Int) : Env :=
  ⟨now, 500, 1000, fun _ => none, fun _ _ => false, fun _ => false, fun _ => 1,
    fun _ => false, fun _ => 0, true, fun _ => some 50, fun _ => true⟩

/-- An action at address 4 whose handler is the native function
`increaseItemId`, as `loadFunction` leaves it: not scripted. -/
def sampleNativeAction : Action :=
  ⟨4, false, true, true, false, 0, some NativeFunction.increaseItemId, false⟩

/-- A registry whose item-type table maps type 100 to `sampleNativeAction`. -/
def sampleNativeRegistry : Registry :=
  ⟨[(100, sampleNativeAction)], [], []⟩

/-- The registry after loading the range 10..12 of item types for the action at
address 1 and the unique id 5 for the action at address 2. -/
def sampleLoadedRegistry : Registry :=
  ⟨[(10, sampleAction 1), (11, sampleAction 1), (12, sampleAction 1)],
    [(5, sampleAction 2)], []⟩

/-- A locked door of type 100 at address 60 that lets nobody through. -/
def sampleLockedDoor : Item :=
  ⟨60, ⟨0, 0, 100⟩, "door", "doors", 1, some ⟨fun _ => false⟩, none, some ⟨60, none, 0⟩,
    true, true, 10⟩

/-! ## Resolution theorems -/

/-- C1: `getAction` is the first hit of the four lookups taken in the fixed
order unique id, action id, item type, rune spell (the first two only for a
non-zero id), and it is none exactly when all four lookups miss. -/
theorem getAction_eq_firstHit (r : Registry) (getRuneSpell : Nat → Option Action)
    (item : ItemIds) :
    getAction r getRuneSpell item = firstHit (resolveTiers r getRuneSpell item) ∧
    (getAction r getRuneSpell item = none ↔
      ∀ t ∈ resolveTiers r getRuneSpell item, t = none) := by
  unfold getAction resolveTiers
  by_cases hu : item.uniqueId = 0 <;> by_cases ha : item.actionId = 0 <;>
    simp only [hu, ha, ne_eq, not_true_eq_false, not_false_eq_true, if_true, if_false] <;>
    (try cases h1 : r.uniqueItemMap.find item.uniqueId) <;>
    (try cases h2 : r.actionItemMap.find item.actionId) <;>
    cases h3 : r.useItemMap.find item.id <;>
    cases h4 : getRuneSpell item.id <;>
    simp [firstHit]

/-- C2 as stated fails: with unique id 5 not registered, the item with unique id
5 and action id 7 resolves to the action-id table's entry for 7, and emptying
the action-id table alone changes the result. -/
theorem getAction_falls_through_to_action_table :
    sampleItemIds.uniqueId ≠ 0 ∧ sampleItemIds.actionId ≠ 0 ∧
    getAction sampleRegistry (fun _ => none) sampleItemIds =
      sampleRegistry.actionItemMap.find sampleItemIds.actionId ∧
    getAction sampleRegistry (fun _ => none) sampleItemIds = some (sampleAction 1) ∧
    emptyRegistry.useItemMap = sampleRegistry.useItemMap ∧
    emptyRegistry.uniqueItemMap = sampleRegistry.uniqueItemMap ∧
    getAction emptyRegistry (fun _ => none) sampleItemIds ≠
      getAction sampleRegistry (fun _ => none) sampleItemIds := by
  decide

/-- C2, amended: when the item carries a non-zero unique id and a non-zero
action id and the unique-id table has an entry for that unique id, `getAction`
returns that entry, whatever the action-id table holds. -/
theorem getAction_registered_uid_ignores_action_table (r : Registry)
    (getRuneSpell : Nat → Option Action) (item : ItemIds) (a : Action)
    (hu : item.uniqueId ≠ 0) (_ha : item.actionId ≠ 0)
    (hreg : r.uniqueItemMap.find item.uniqueId = some a) :
    getAction r getRuneSpell item = some a ∧
    ∀ m : ActionUseMap,
      getAction { r with actionItemMap := m } getRuneSpell item =
        getAction r getRuneSpell item := by
  constructor
  · simp [getAction, hu, hreg]
  · intro m
    simp [getAction, hu, hreg]

/-- Witness for C2 (amended): unique id 5 registered to action 2, action id 7
registered to action 1. -/
theorem getAction_registered_uid_ignores_action_table_witness :
    getAction ⟨[], [(5, sampleAction 2)], [(7, sampleAction 1)]⟩ (fun _ => none)
        sampleItemIds = some (sampleAction 2) ∧
    ∀ m : ActionUseMap,
      getAction { (⟨[], [(5, sampleAction 2)], [(7, sampleAction 1)]⟩ : Registry) with
          actionItemMap := m } (fun _ => none) sampleItemIds =
        getAction ⟨[], [(5, sampleAction 2)], [(7, sampleAction 1)]⟩ (fun _ => none)
          sampleItemIds :=
  getAction_registered_uid_ignores_action_table
    ⟨[], [(5, sampleAction 2)], [(7, sampleAction 1)]⟩ (fun _ => none) sampleItemIds
    (sampleAction 2) (by decide) (by decide) (by decide)

/-! ## Registration lemmas -/

theorem find_assign (m : ActionUseMap) (k j : Nat) (a : Action) :
    (m.assign k a).find j = if j = k then some a else m.find j := by
  induction m with
  | nil =>
    by_cases h : j = k
    · simp [ActionUseMap.assign, ActionUseMap.find, h]
    · have h2 : ¬ k = j := fun e => h e.symm
      simp [ActionUseMap.assign, ActionUseMap.find, h, h2]
  | cons p rest ih =>
    obtain ⟨k0, v0⟩ := p
    by_cases hk : k0 = k
    · subst hk
      by_cases hj : j = k0
      · subst hj
        simp [ActionUseMap.assign, ActionUseMap.find]
      · have h2 : ¬ k0 = j := fun e => hj e.symm
        simp [ActionUseMap.assign, ActionUseMap.find, hj, h2]
    · by_cases hj : k0 = j
      · subst hj
        simp [ActionUseMap.assign, ActionUseMap.find, hk]
      · simp [ActionUseMap.assign, ActionUseMap.find, hk, hj, ih]

theorem table_setTable (r : Registry) (tb tb2 : Table) (m : ActionUseMap) :
    (r.setTable tb m).table tb2 = if tb2 = tb then m else r.table tb2 := by
  cases tb <;> cases tb2 <;> simp [Registry.setTable, Registry.table]

theorem registerEvent_singleNode (fuel : Nat) (r : Registry) (action : Action)
    (tb : Table) (k : Nat) :
    registerEvent fuel r action (singleNode tb k) = some (registerSingle r tb action k) := by
  cases tb <;> simp [registerEvent, singleNode, XmlNode.empty]

theorem registerEvent_rangeNode (fuel : Nat) (r : Registry) (action : Action)
    (tb : Table) (f t : Nat) :
    registerEvent fuel r action (rangeNode tb f t) = registerRange fuel r tb action f t := by
  cases tb <;> simp [registerEvent, rangeNode, XmlNode.empty]

/-- C3: registering a single id `k` on any of the three tables. When `k` is
occupied the call returns false, writes the duplicate warning and leaves the
whole registry as it was, so the earlier action is still stored at `k`; when
`k` is free it returns true, the table then maps `k` to the new action, every
other key of the table is as before and the other two tables are untouched. -/
theorem registerEvent_single (fuel : Nat) (r : Registry) (action : Action)
    (tb : Table) (k : Nat) :
    (∀ old, (r.table tb).find k = some old →
      ∃ res, registerEvent fuel r action (singleNode tb k) = some res ∧
        res.ok = false ∧ res.registry = r ∧
        (res.registry.table tb).find k = some old ∧
        res.diagnostics = [Diagnostic.duplicate tb k]) ∧
    ((r.table tb).find k = none →
      ∃ res, registerEvent fuel r action (singleNode tb k) = some res ∧
        res.ok = true ∧
        (res.registry.table tb).find k = some action ∧
        (∀ j, j ≠ k → (res.registry.table tb).find j = (r.table tb).find j) ∧
        (∀ tb2, tb2 ≠ tb → res.registry.table tb2 = r.table tb2)) := by
  rw [registerEvent_singleNode]
  constructor
  · intro old h
    exact ⟨_, rfl, by simp [registerSingle, h], by simp [registerSingle, h],
      by simp [registerSingle, h], by simp [registerSingle, h]⟩
  · intro h
    refine ⟨_, rfl, ?_, ?_, ?_, ?_⟩
    · simp [registerSingle, h]
    · simp [registerSingle, h, table_setTable, find_assign]
    · intro j hj
      simp [registerSingle, h, table_setTable, find_assign, hj]
    · intro tb2 h2
      simp [registerSingle, h, table_setTable, h2]

/-- Witness for C3: unique id 5 is registered twice; on the empty registry the
call succeeds, on the registry that has it the call is rejected and the first
action stays. -/
theorem registerEvent_single_witness :
    (∃ res, registerEvent 0 emptyRegistry (sampleAction 1) (singleNode Table.unique 5) =
        some res ∧ res.ok = true ∧
      (res.registry.table Table.unique).find 5 = some (sampleAction 1) ∧
      (∀ j, j ≠ 5 →
        (res.registry.table Table.unique).find j = (emptyRegistry.table Table.unique).find j) ∧
      (∀ tb2, tb2 ≠ Table.unique → res.registry.table tb2 = emptyRegistry.table tb2)) ∧
    (∃ res, registerEvent 0 ⟨[], [(5, sampleAction 1)], []⟩ (sampleAction 2)
        (singleNode Table.unique 5) = some res ∧
      res.ok = false ∧ res.registry = ⟨[], [(5, sampleAction 1)], []⟩ ∧
      (res.registry.table Table.unique).find 5 = some (sampleAction 1) ∧
      res.diagnostics = [Diagnostic.duplicate Table.unique 5]) :=
  ⟨(registerEvent_single 0 emptyRegistry (sampleAction 1) Table.unique 5).2 (by decide),
   (registerEvent_single 0 ⟨[], [(5, sampleAction 1)], []⟩ (sampleAction 2) Table.unique 5).1
     (sampleAction 1) (by decide)⟩

theorem any_congr_mem {α : Type} (l : List α) (p q : α → Bool)
    (h : ∀ x ∈ l, p x = q x) : l.any p = l.any q := by
  induction l with
  | nil => rfl
  | cons x xs ih =>
    have hx : p x = q x := h x (List.mem_cons_self x xs)
    have hxs : xs.any p = xs.any q := ih (fun y hy => h y (List.mem_cons_of_mem x hy))
    simp [List.any_cons, hx, hxs]

theorem rangeLoop_spec (tb : Table) (action : Action) (fromId toId : Nat)
    (htop : toId < 65535) :
    ∀ (d fuel : Nat) (m : ActionUseMap) (iterId : Nat) (success : Bool)
      (out : List Diagnostic), iterId + d = toId → d < fuel →
      ∃ m2, rangeLoop tb action fromId toId fuel m iterId success out =
          some (m2,
            success || (List.range' (iterId + 1) d).any (fun k => (m.find k).isNone),
            out ++ ((List.range' (iterId + 1) d).filter (fun k => (m.find k).isSome)).map
              (fun k => Diagnostic.duplicateInRange tb k fromId toId)) ∧
        ∀ k, m2.find k =
          if iterId < k ∧ k ≤ toId ∧ m.find k = none then some action else m.find k := by
  intro d
  induction d with
  | zero =>
    intro fuel m iterId success out hd hf
    obtain ⟨f, rfl⟩ : ∃ f, fuel = f + 1 := ⟨fuel - 1, by omega⟩
    have hmod : (iterId + 1) % 65536 = iterId + 1 := Nat.mod_eq_of_lt (by omega)
    refine ⟨m, ?_, ?_⟩
    · have hgt : ¬ iterId + 1 ≤ toId := by omega
      simp [rangeLoop, hmod, hgt]
    · intro k
      have : ¬ (iterId < k ∧ k ≤ toId ∧ m.find k = none) := by
        rintro ⟨h1, h2, _⟩
        omega
      simp [this]
  | succ d ih =>
    intro fuel m iterId success out hd hf
    obtain ⟨f, rfl⟩ : ∃ f, fuel = f + 1 := ⟨fuel - 1, by omega⟩
    have hmod : (iterId + 1) % 65536 = iterId + 1 := Nat.mod_eq_of_lt (by omega)
    have hle : iterId + 1 ≤ toId := by omega
    have hrange : List.range' (iterId + 1) (d + 1) =
        (iterId + 1) :: List.range' (iterId + 1 + 1) d := by
      simp [List.range'_succ]
    have hne : ∀ k ∈ List.range' (iterId + 1 + 1) d, k ≠ iterId + 1 := by
      intro k hk
      have := (List.mem_range'_1.mp hk).1
      omega
    cases hfind : m.find (iterId + 1) with
    | some old =>
      obtain ⟨m2, hrun, hm2⟩ := ih f m (iterId + 1) success
        (out ++ [Diagnostic.duplicateInRange tb (iterId + 1) fromId toId]) (by omega) (by omega)
      refine ⟨m2, ?_, ?_⟩
      · simp [rangeLoop, hmod, hle, hfind, hrun, hrange, List.filter_cons]
      · intro k
        rw [hm2 k]
        by_cases hk : k = iterId + 1
        · subst hk
          simp [hfind]
        · have e : (iterId + 1 < k ∧ k ≤ toId ∧ m.find k = none) ↔
              (iterId < k ∧ k ≤ toId ∧ m.find k = none) := by
            constructor
            · rintro ⟨h1, h2, h3⟩
              exact ⟨by omega, h2, h3⟩
            · rintro ⟨h1, h2, h3⟩
              exact ⟨by omega, h2, h3⟩
          simp only [e]
    | none =>
      obtain ⟨m2, hrun, hm2⟩ := ih f (m.assign (iterId + 1) action) (iterId + 1) true out
        (by omega) (by omega)
      have hany : (List.range' (iterId + 1 + 1) d).any
            (fun k => ((m.assign (iterId + 1) action).find k).isNone) =
          (List.range' (iterId + 1 + 1) d).any (fun k => (m.find k).isNone) :=
        any_congr_mem _ _ _ (fun k hk => by simp [find_assign, hne k hk])
      have hfilter : (List.range' (iterId + 1 + 1) d).filter
            (fun k => ((m.assign (iterId + 1) action).find k).isSome) =
          (List.range' (iterId + 1 + 1) d).filter (fun k => (m.find k).isSome) :=
        List.filter_congr (fun k hk => by simp [find_assign, hne k hk])
      refine ⟨m2, ?_, ?_⟩
      · simp [rangeLoop, hmod, hle, hfind, hrun, hrange, List.filter_cons, hfilter]
      · intro k
        rw [hm2 k]
        by_cases hk : k = iterId + 1
        · subst hk
          simp [hfind, find_assign, hle]
        · have e : (iterId + 1 < k ∧ k ≤ toId ∧
                (m.assign (iterId + 1) action).find k = none) ↔
              (iterId < k ∧ k ≤ toId ∧ m.find k = none) := by
            simp only [find_assign, hk, if_false]
            constructor
            · rintro ⟨h1, h2, h3⟩
              exact ⟨by omega, h2, h3⟩
            · rintro ⟨h1, h2, h3⟩
              exact ⟨by omega, h2, h3⟩
          rw [if_congr e rfl rfl]
          simp only [find_assign, hk, if_false]

theorem registerRangeMap_spec (tb : Table) (action : Action) (fromId toId fuel : Nat)
    (m : ActionUseMap) (hle : fromId ≤ toId) (htop : toId < 65535)
    (hfuel : toId - fromId < fuel) :
    ∃ m2, registerRangeMap fuel tb action fromId toId m =
        some (m2, (idsInRange fromId toId).any (fun k => (m.find k).isNone),
          ((idsInRange fromId toId).filter (fun k => (m.find k).isSome)).map
            (fun k => Diagnostic.duplicateInRange tb k fromId toId)) ∧
      ∀ k, m2.find k =
        if fromId ≤ k ∧ k ≤ toId ∧ m.find k = none then some action else m.find k := by
  have hids : idsInRange fromId toId =
      fromId :: List.range' (fromId + 1) (toId - fromId) := by
    unfold idsInRange
    have : toId + 1 - fromId = (toId - fromId) + 1 := by omega
    rw [this, List.range'_succ]
  have hne : ∀ k ∈ List.range' (fromId + 1) (toId - fromId), k ≠ fromId := by
    intro k hk
    have := (List.mem_range'_1.mp hk).1
    omega
  cases hfind : m.find fromId with
  | some old =>
    obtain ⟨m2, hrun, hm2⟩ := rangeLoop_spec tb action fromId toId htop (toId - fromId) fuel m
      fromId false [Diagnostic.duplicateInRange tb fromId fromId toId] (by omega) hfuel
    refine ⟨m2, ?_, ?_⟩
    · simp [registerRangeMap, hfind, hrun, hids, List.filter_cons]
    · intro k
      rw [hm2 k]
      by_cases hk : k = fromId
      · subst hk
        simp [hfind]
      · have e : (fromId < k ∧ k ≤ toId ∧ m.find k = none) ↔
            (fromId ≤ k ∧ k ≤ toId ∧ m.find k = none) := by
          constructor
          · rintro ⟨h1, h2, h3⟩
            exact ⟨by omega, h2, h3⟩
          · rintro ⟨h1, h2, h3⟩
            exact ⟨by omega, h2, h3⟩
        rw [if_congr e rfl rfl]
  | none =>
    obtain ⟨m2, hrun, hm2⟩ := rangeLoop_spec tb action fromId toId htop (toId - fromId) fuel
      (m.assign fromId action) fromId true [] (by omega) hfuel
    have hfilter : (List.range' (fromId + 1) (toId - fromId)).filter
          (fun k => ((m.assign fromId action).find k).isSome) =
        (List.range' (fromId + 1) (toId - fromId)).filter (fun k => (m.find k).isSome) :=
      List.filter_congr (fun k hk => by simp [find_assign, hne k hk])
    refine ⟨m2, ?_, ?_⟩
    · simp [registerRangeMap, hfind, hrun, hids, List.filter_cons, hfilter]
    · intro k
      rw [hm2 k]
      by_cases hk : k = fromId
      · subst hk
        simp [hfind, find_assign, hle]
      · have e : (fromId < k ∧ k ≤ toId ∧ (m.assign fromId action).find k = none) ↔
            (fromId ≤ k ∧ k ≤ toId ∧ m.find k = none) := by
          simp only [find_assign, hk, if_false]
          constructor
          · rintro ⟨h1, h2, h3⟩
            exact ⟨by omega, h2, h3⟩
          · rintro ⟨h1, h2, h3⟩
            exact ⟨by omega, h2, h3⟩
        rw [if_congr e rfl rfl]
        simp only [find_assign, hk, if_false]

theorem mem_idsInRange (fromId toId k : Nat) :
    k ∈ idsInRange fromId toId ↔ fromId ≤ k ∧ k ≤ toId := by
  unfold idsInRange
  rw [List.mem_range'_1]
  omega

/-- C4: range registration `fromId..toId` with `fromId ≤ toId < 65535`, on any of
the three tables and with enough fuel for the loop (one unit per id): the call
returns; every key that was occupied keeps its action; every free id of the
range is mapped to the new action; keys outside the range and the other two
tables are unchanged; the diagnostics are exactly one warning per occupied id
of the range, in increasing order; and the result is true exactly when some id
of the range was free. -/
theorem registerEvent_range (fuel : Nat) (r : Registry) (action : Action) (tb : Table)
    (fromId toId : Nat) (hle : fromId ≤ toId) (htop : toId < 65535)
    (hfuel : toId - fromId < fuel) :
    ∃ res, registerEvent fuel r action (rangeNode tb fromId toId) = some res ∧
      (∀ k old, (r.table tb).find k = some old →
        (res.registry.table tb).find k = some old) ∧
      (∀ k, fromId ≤ k → k ≤ toId → (r.table tb).find k = none →
        (res.registry.table tb).find k = some action) ∧
      (∀ k, (k < fromId ∨ toId < k) →
        (res.registry.table tb).find k = (r.table tb).find k) ∧
      (∀ tb2, tb2 ≠ tb → res.registry.table tb2 = r.table tb2) ∧
      res.diagnostics =
        ((idsInRange fromId toId).filter (fun k => ((r.table tb).find k).isSome)).map
          (fun k => Diagnostic.duplicateInRange tb k fromId toId) ∧
      (res.ok = true ↔ ∃ k, fromId ≤ k ∧ k ≤ toId ∧ (r.table tb).find k = none) ∧
      (res.ok = false ↔ ∀ k, fromId ≤ k → k ≤ toId → ((r.table tb).find k).isSome) := by
  obtain ⟨m2, hrun, hm2⟩ :=
    registerRangeMap_spec tb action fromId toId fuel (r.table tb) hle htop hfuel
  rw [registerEvent_rangeNode]
  have hres : registerRange fuel r tb action fromId toId =
      some ⟨(idsInRange fromId toId).any (fun k => ((r.table tb).find k).isNone),
        r.setTable tb m2,
        ((idsInRange fromId toId).filter (fun k => ((r.table tb).find k).isSome)).map
          (fun k => Diagnostic.duplicateInRange tb k fromId toId)⟩ := by
    simp only [registerRange, hrun]
  refine ⟨_, hres, ?_, ?_, ?_, ?_, rfl, ?_, ?_⟩
  · intro k old hk
    simp [table_setTable, hm2 k, hk]
  · intro k h1 h2 hk
    simp [table_setTable, hm2 k, hk, h1, h2]
  · intro k hk
    have : ¬ (fromId ≤ k ∧ k ≤ toId ∧ (r.table tb).find k = none) := by
      rintro ⟨h1, h2, _⟩
      omega
    simp [table_setTable, hm2 k, this]
  · intro tb2 h2
    simp [table_setTable, h2]
  · simp only [List.any_eq_true, mem_idsInRange, Option.isNone_iff_eq_none]
    constructor
    · rintro ⟨k, ⟨h1, h2⟩, h3⟩
      exact ⟨k, h1, h2, h3⟩
    · rintro ⟨k, h1, h2, h3⟩
      exact ⟨k, ⟨h1, h2⟩, h3⟩
  · simp only [List.any_eq_false, mem_idsInRange, Option.isNone_iff_eq_none]
    constructor
    · intro h k h1 h2
      cases hk : (r.table tb).find k with
      | none => exact absurd hk (h k ⟨h1, h2⟩)
      | some v => rfl
    · intro h k hk hnone
      have := h k hk.1 hk.2
      simp [hnone] at this

/-- Witness for C4: the range 10..12 on an item table that already holds 11. -/
theorem registerEvent_range_witness :
    ∃ res, registerEvent 3 ⟨[(11, sampleAction 1)], [], []⟩ (sampleAction 2)
        (rangeNode Table.item 10 12) = some res ∧
      (∀ k old, ((⟨[(11, sampleAction 1)], [], []⟩ : Registry).table Table.item).find k =
          some old → (res.registry.table Table.item).find k = some old) ∧
      (∀ k, 10 ≤ k → k ≤ 12 →
        ((⟨[(11, sampleAction 1)], [], []⟩ : Registry).table Table.item).find k = none →
        (res.registry.table Table.item).find k = some (sampleAction 2)) ∧
      (∀ k, (k < 10 ∨ 12 < k) →
        (res.registry.table Table.item).find k =
          ((⟨[(11, sampleAction 1)], [], []⟩ : Registry).table Table.item).find k) ∧
      (∀ tb2, tb2 ≠ Table.item →
        res.registry.table tb2 = (⟨[(11, sampleAction 1)], [], []⟩ : Registry).table tb2) ∧
      res.diagnostics =
        ((idsInRange 10 12).filter (fun k =>
          (((⟨[(11, sampleAction 1)], [], []⟩ : Registry).table Table.item).find k).isSome)).map
          (fun k => Diagnostic.duplicateInRange Table.item k 10 12) ∧
      (res.ok = true ↔ ∃ k, 10 ≤ k ∧ k ≤ 12 ∧
        ((⟨[(11, sampleAction 1)], [], []⟩ : Registry).table Table.item).find k = none) ∧
      (res.ok = false ↔ ∀ k, 10 ≤ k → k ≤ 12 →
        (((⟨[(11, sampleAction 1)], [], []⟩ : Registry).table Table.item).find k).isSome) :=
  registerEvent_range 3 ⟨[(11, sampleAction 1)], [], []⟩ (sampleAction 2) Table.item 10 12
    (by decide) (by decide) (by decide)

/-! ## Validator theorems -/

theorem axisDistance_le_iff (a b n : Nat) :
    axisDistance a b ≤ n ↔ |(a : Int) - (b : Int)| ≤ (n : Int) := by
  unfold axisDistance
  rw [Int.abs_eq_natAbs]
  omega

theorem areInRange_eq_true_iff (dx dy : Nat) (p1 p2 : Position) :
    areInRange dx dy p1 p2 = true ↔
      |(p1.x : Int) - (p2.x : Int)| ≤ (dx : Int) ∧ |(p1.y : Int) - (p2.y : Int)| ≤ (dy : Int) := by
  simp [areInRange, axisDistance_le_iff]

/-- C5: the adjacent-use check for a target that is not the sentinel. A higher
actor floor gives "first go upstairs", a lower one "first go downstairs"; on the
same floor an offset above 1 along x or y gives "too far away" and offsets of at
most 1 along both give "no error" (so offset 1 on both axes passes and offset 2
on either is too far); no other code is returned. -/
theorem canUse_spec (p t : Position) (ht : t.x ≠ 0xFFFF) :
    (p.z > t.z → canUse p t = ReturnValue.RETURNVALUE_FIRSTGOUPSTAIRS) ∧
    (p.z < t.z → canUse p t = ReturnValue.RETURNVALUE_FIRSTGODOWNSTAIRS) ∧
    (p.z = t.z → (|(p.x : Int) - (t.x : Int)| > 1 ∨ |(p.y : Int) - (t.y : Int)| > 1) →
      canUse p t = ReturnValue.RETURNVALUE_TOOFARAWAY) ∧
    (p.z = t.z → |(p.x : Int) - (t.x : Int)| ≤ 1 → |(p.y : Int) - (t.y : Int)| ≤ 1 →
      canUse p t = ReturnValue.RETURNVALUE_NOERROR) ∧
    (p.z = t.z → |(p.x : Int) - (t.x : Int)| = 1 → |(p.y : Int) - (t.y : Int)| = 1 →
      canUse p t = ReturnValue.RETURNVALUE_NOERROR) ∧
    (p.z = t.z → (|(p.x : Int) - (t.x : Int)| = 2 ∨ |(p.y : Int) - (t.y : Int)| = 2) →
      canUse p t = ReturnValue.RETURNVALUE_TOOFARAWAY) ∧
    (canUse p t = ReturnValue.RETURNVALUE_FIRSTGOUPSTAIRS ∨
      canUse p t = ReturnValue.RETURNVALUE_FIRSTGODOWNSTAIRS ∨
      canUse p t = ReturnValue.RETURNVALUE_TOOFARAWAY ∨
      canUse p t = ReturnValue.RETURNVALUE_NOERROR) := by
  have hfar : p.z = t.z →
      (|(p.x : Int) - (t.x : Int)| > 1 ∨ |(p.y : Int) - (t.y : Int)| > 1) →
      canUse p t = ReturnValue.RETURNVALUE_TOOFARAWAY := by
    intro hz hd
    have hr : areInRange 1 1 p t = false := by
      rw [Bool.eq_false_iff]
      intro h
      have h2 := (areInRange_eq_true_iff 1 1 p t).mp h
      rcases hd with hd | hd
      · exact absurd h2.1 (by push_cast; omega)
      · exact absurd h2.2 (by push_cast; omega)
    simp [canUse, ht, hz, hr]
  have hnear : p.z = t.z → |(p.x : Int) - (t.x : Int)| ≤ 1 →
      |(p.y : Int) - (t.y : Int)| ≤ 1 →
      canUse p t = ReturnValue.RETURNVALUE_NOERROR := by
    intro hz hx hy
    have hr : areInRange 1 1 p t = true :=
      (areInRange_eq_true_iff 1 1 p t).mpr ⟨by exact_mod_cast hx, by exact_mod_cast hy⟩
    simp [canUse, ht, hz, hr]
  refine ⟨?_, ?_, hfar, hnear, ?_, ?_, ?_⟩
  · intro hz
    have hne : p.z ≠ t.z := by omega
    simp [canUse, ht, hne, hz]
  · intro hz
    have hne : p.z ≠ t.z := by omega
    have hng : ¬ p.z > t.z := by omega
    simp only [canUse, ht, hne, hng, ne_eq, not_false_eq_true, if_true, if_false]
  · intro hz hx hy
    exact hnear hz (by omega) (by omega)
  · intro hz hd
    exact hfar hz (by rcases hd with h | h <;> [left; right] <;> omega)
  · unfold canUse
    split_ifs <;> simp

/-- Witness for C5: actor at (100, 100, 7); a diagonal neighbour passes, a
target two tiles east is too far, a target one floor up needs the stairs. -/
theorem canUse_spec_witness :
    canUse ⟨100, 100, 7⟩ ⟨101, 99, 7⟩ = ReturnValue.RETURNVALUE_NOERROR ∧
    canUse ⟨100, 100, 7⟩ ⟨102, 100, 7⟩ = ReturnValue.RETURNVALUE_TOOFARAWAY ∧
    canUse ⟨100, 100, 7⟩ ⟨100, 100, 6⟩ = ReturnValue.RETURNVALUE_FIRSTGOUPSTAIRS ∧
    canUse ⟨100, 100, 7⟩ ⟨100, 100, 8⟩ = ReturnValue.RETURNVALUE_FIRSTGODOWNSTAIRS :=
  ⟨(canUse_spec ⟨100, 100, 7⟩ ⟨101, 99, 7⟩ (by decide)).2.2.2.2.1 rfl (by decide) (by decide),
   (canUse_spec ⟨100, 100, 7⟩ ⟨102, 100, 7⟩ (by decide)).2.2.2.2.2.1 rfl (Or.inl (by decide)),
   (canUse_spec ⟨100, 100, 7⟩ ⟨100, 100, 6⟩ (by decide)).1 (by decide),
   (canUse_spec ⟨100, 100, 7⟩ ⟨100, 100, 8⟩ (by decide)).2.1 (by decide)⟩

/-- C6: the far-use check for a target that is not the sentinel returns the
first applicable of: the floor code (upstairs when the actor is higher, else
downstairs) when `checkFloor` holds and the floors differ; "too far away" when
the x offset exceeds 7 or the y offset exceeds 5; "cannot throw" when
`checkLineOfSight` holds and the line-of-sight query fails; else "no error".
With `checkFloor` off no floor code is returned, and with both flags off the
verdict is a function of the x and y offsets alone. -/
theorem canUseFar_spec (canThrowObjectTo : Position → Position → Bool) (p t : Position)
    (checkLineOfSight checkFloor : Bool) (ht : t.x ≠ 0xFFFF) :
    (canUseFar canThrowObjectTo p t checkLineOfSight checkFloor).ret =
      (if checkFloor = true ∧ p.z ≠ t.z then
        (if p.z > t.z then ReturnValue.RETURNVALUE_FIRSTGOUPSTAIRS
          else ReturnValue.RETURNVALUE_FIRSTGODOWNSTAIRS)
      else if |(p.x : Int) - (t.x : Int)| > 7 ∨ |(p.y : Int) - (t.y : Int)| > 5 then
        ReturnValue.RETURNVALUE_TOOFARAWAY
      else if checkLineOfSight = true ∧ canThrowObjectTo p t = false then
        ReturnValue.RETURNVALUE_CANNOTTHROW
      else ReturnValue.RETURNVALUE_NOERROR) ∧
    (checkFloor = false →
      (canUseFar canThrowObjectTo p t checkLineOfSight checkFloor).ret ≠
          ReturnValue.RETURNVALUE_FIRSTGOUPSTAIRS ∧
      (canUseFar canThrowObjectTo p t checkLineOfSight checkFloor).ret ≠
          ReturnValue.RETURNVALUE_FIRSTGODOWNSTAIRS) ∧
    (∀ (canThrowObjectTo2 : Position → Position → Bool) (p2 t2 : Position),
      t2.x ≠ 0xFFFF →
      (p2.x : Int) - (t2.x : Int) = (p.x : Int) - (t.x : Int) →
      (p2.y : Int) - (t2.y : Int) = (p.y : Int) - (t.y : Int) →
      canUseFar canThrowObjectTo2 p2 t2 false false =
        canUseFar canThrowObjectTo p t false false) := by
  have hrange : ∀ a b : Position, areInRange 7 5 b a =
      !decide (|(a.x : Int) - (b.x : Int)| > 7 ∨ |(a.y : Int) - (b.y : Int)| > 5) := by
    intro a b
    rw [Bool.eq_iff_iff, areInRange_eq_true_iff]
    simp only [Bool.not_eq_true', decide_eq_false_iff_not, not_or, not_lt, gt_iff_lt]
    rw [abs_sub_comm (b.x : Int), abs_sub_comm (b.y : Int)]
    norm_num
  have hret : (canUseFar canThrowObjectTo p t checkLineOfSight checkFloor).ret =
      (if checkFloor = true ∧ p.z ≠ t.z then
        (if p.z > t.z then ReturnValue.RETURNVALUE_FIRSTGOUPSTAIRS
          else ReturnValue.RETURNVALUE_FIRSTGODOWNSTAIRS)
      else if |(p.x : Int) - (t.x : Int)| > 7 ∨ |(p.y : Int) - (t.y : Int)| > 5 then
        ReturnValue.RETURNVALUE_TOOFARAWAY
      else if checkLineOfSight = true ∧ canThrowObjectTo p t = false then
        ReturnValue.RETURNVALUE_CANNOTTHROW
      else ReturnValue.RETURNVALUE_NOERROR) := by
    unfold canUseFar
    rw [hrange]
    cases checkFloor <;> cases checkLineOfSight <;> cases hthrow : canThrowObjectTo p t <;>
      by_cases hz : p.z = t.z <;>
      by_cases hd : (|(p.x : Int) - (t.x : Int)| > 7 ∨ |(p.y : Int) - (t.y : Int)| > 5) <;>
      simp [ht, hz, hd]
  refine ⟨hret, ?_, ?_⟩
  · intro hcf
    rw [hret]
    subst hcf
    constructor <;> split_ifs <;> simp_all
  · intro o2 p2 t2 ht2 hx hy
    unfold canUseFar
    rw [hrange, hrange, hx, hy]
    simp [ht, ht2]

/-- Witness for C6: actor at (100, 100, 7) and a target eight tiles east on
another floor, floor check off and line of sight on with a blocked path. -/
theorem canUseFar_spec_witness :
    (canUseFar (fun _ _ => false) ⟨100, 100, 7⟩ ⟨108, 100, 6⟩ true false).ret =
      ReturnValue.RETURNVALUE_TOOFARAWAY ∧
    (canUseFar (fun _ _ => false) ⟨100, 100, 7⟩ ⟨107, 95, 6⟩ true false).ret =
      ReturnValue.RETURNVALUE_CANNOTTHROW :=
  ⟨(canUseFar_spec (fun _ _ => false) ⟨100, 100, 7⟩ ⟨108, 100, 6⟩ true false
      (by decide)).1.trans (by decide),
   (canUseFar_spec (fun _ _ => false) ⟨100, 100, 7⟩ ⟨107, 95, 6⟩ true false
      (by decide)).1.trans (by decide)⟩

/-- C7: a target with the sentinel x coordinate 0xFFFF passes the adjacent-use
check, the far-use check and `canExecuteAction` with "no error", for every
actor position, every y and z, every flag combination and every line-of-sight
collaborator, and no line-of-sight query is made. -/
theorem sentinel_target_passes (canThrowObjectTo : Position → Position → Bool)
    (action : Action) (p t : Position) (checkLineOfSight checkFloor : Bool)
    (ht : t.x = 0xFFFF) :
    canUse p t = ReturnValue.RETURNVALUE_NOERROR ∧
    canUseFar canThrowObjectTo p t checkLineOfSight checkFloor =
      ⟨ReturnValue.RETURNVALUE_NOERROR, []⟩ ∧
    canExecuteAction canThrowObjectTo action p t = ⟨ReturnValue.RETURNVALUE_NOERROR, []⟩ := by
  have h1 : canUse p t = ReturnValue.RETURNVALUE_NOERROR := by simp [canUse, ht]
  have h2 : ∀ cl cf, canUseFar canThrowObjectTo p t cl cf =
      ⟨ReturnValue.RETURNVALUE_NOERROR, []⟩ := by
    intro cl cf
    simp [canUseFar, ht]
  refine ⟨h1, h2 _ _, ?_⟩
  unfold canExecuteAction
  cases action.allowFarUse <;> simp [h1, h2]

/-- Witness for C7: a far-use action with both checks on, a blocked line of
sight and an inventory target far away on another floor. -/
theorem sentinel_target_passes_witness :
    canUse ⟨100, 100, 7⟩ ⟨0xFFFF, 64, 0⟩ = ReturnValue.RETURNVALUE_NOERROR ∧
    canUseFar (fun _ _ => false) ⟨100, 100, 7⟩ ⟨0xFFFF, 64, 0⟩ true true =
      ⟨ReturnValue.RETURNVALUE_NOERROR, []⟩ ∧
    canExecuteAction (fun _ _ => false) ⟨1, true, true, true, true, 1, none, false⟩
      ⟨100, 100, 7⟩ ⟨0xFFFF, 64, 0⟩ = ⟨ReturnValue.RETURNVALUE_NOERROR, []⟩ :=
  sentinel_target_passes (fun _ _ => false) ⟨1, true, true, true, true, 1, none, false⟩
    ⟨100, 100, 7⟩ ⟨0xFFFF, 64, 0⟩ true true rfl

/-! ## Dispatcher theorems -/

/-- C8: when the actor passes the gate and no action resolves for the item,
`useItemEx` returns false, its only effect is one cancel message "cannot use
this object" (no handler call, no built-in rule), and the actor is changed by
the cooldown charge alone: containers, bed, depot id and write item are as
before. -/
theorem useItemEx_without_action (env : Env) (r : Registry) (player : Player)
    (fromPos toPos : Position) (toStackPos : Nat) (item : Item) (isHotkey : Bool)
    (creatureId : Nat) (hgate : canDoAction player env.OTSYS_TIME = true)
    (hnone : getAction r env.getRuneSpell item.ids = none) :
    (useItemEx env r player fromPos toPos toStackPos item isHotkey creatureId).val = false ∧
    (useItemEx env r player fromPos toPos toStackPos item isHotkey creatureId).trace =
      [Effect.sendCancelMessage ReturnValue.RETURNVALUE_CANNOTUSETHISOBJECT] ∧
    (useItemEx env r player fromPos toPos toStackPos item isHotkey creatureId).player =
      chargeCooldown player env.OTSYS_TIME env.EX_ACTIONS_DELAY_INTERVAL ∧
    (useItemEx env r player fromPos toPos toStackPos item isHotkey creatureId).player.openContainers =
      player.openContainers ∧
    (useItemEx env r player fromPos toPos toStackPos item isHotkey creatureId).player.bedItem =
      player.bedItem ∧
    (useItemEx env r player fromPos toPos toStackPos item isHotkey creatureId).player.lastDepotId =
      player.lastDepotId ∧
    (useItemEx env r player fromPos toPos toStackPos item isHotkey creatureId).player.writeItem =
      player.writeItem := by
  simp [useItemEx, hgate, hnone, chargeCooldown, stopWalk, setNextAction, setNextActionTask]

/-- Witness for C8: a plain item on the empty registry, used with a hotkey. -/
theorem useItemEx_without_action_witness :
    (useItemEx (sampleEnv 0) emptyRegistry samplePlayer ⟨100, 100, 7⟩ ⟨101, 100, 7⟩ 0
      sampleItem true 0).val = false ∧
    (useItemEx (sampleEnv 0) emptyRegistry samplePlayer ⟨100, 100, 7⟩ ⟨101, 100, 7⟩ 0
      sampleItem true 0).trace =
      [Effect.sendCancelMessage ReturnValue.RETURNVALUE_CANNOTUSETHISOBJECT] :=
  ⟨(useItemEx_without_action (sampleEnv 0) emptyRegistry samplePlayer ⟨100, 100, 7⟩
      ⟨101, 100, 7⟩ 0 sampleItem true 0 (by decide) (by decide)).1,
   (useItemEx_without_action (sampleEnv 0) emptyRegistry samplePlayer ⟨100, 100, 7⟩
      ⟨101, 100, 7⟩ 0 sampleItem true 0 (by decide) (by decide)).2.1⟩

theorem chargeCooldown_position (player : Player) (now delay : Int) :
    (chargeCooldown player now delay).position = player.position := rfl

/-- C9: for a `useItemEx` call that passes the gate and resolves the action `a`,
the verdict is `a.canExecuteAction(actor, toPos)`: the adjacent-use check when
`allowFarUse` is off (the other two flags are not read) and the far-use check
with the action's `checkLineOfSight` and `checkFloor` when it is on. When the
verdict is not "no error" the call returns false and its effects are the
line-of-sight queries of the check followed by one cancel message carrying the
verdict: no script callback, no native call, no hotkey message. -/
theorem useItemEx_legality (env : Env) (r : Registry) (player : Player)
    (fromPos toPos : Position) (toStackPos : Nat) (item : Item) (isHotkey : Bool)
    (creatureId : Nat) (a : Action) (hgate : canDoAction player env.OTSYS_TIME = true)
    (hres : getAction r env.getRuneSpell item.ids = some a) :
    (a.allowFarUse = false →
      canExecuteAction env.canThrowObjectTo a player.position toPos =
        ⟨canUse player.position toPos, []⟩) ∧
    (a.allowFarUse = true →
      canExecuteAction env.canThrowObjectTo a player.position toPos =
        canUseFar env.canThrowObjectTo player.position toPos a.checkLineOfSight
          a.checkFloor) ∧
    ((canExecuteAction env.canThrowObjectTo a player.position toPos).ret ≠
        ReturnValue.RETURNVALUE_NOERROR →
      (useItemEx env r player fromPos toPos toStackPos item isHotkey creatureId).val = false ∧
      (useItemEx env r player fromPos toPos toStackPos item isHotkey creatureId).trace =
        (canExecuteAction env.canThrowObjectTo a player.position toPos).queries.map
            Effect.sightQuery ++
          [Effect.sendCancelMessage
            (canExecuteAction env.canThrowObjectTo a player.position toPos).ret] ∧
      (useItemEx env r player fromPos toPos toStackPos item isHotkey creatureId).player =
        chargeCooldown player env.OTSYS_TIME env.EX_ACTIONS_DELAY_INTERVAL ∧
      (∀ e ∈ (useItemEx env r player fromPos toPos toStackPos item isHotkey creatureId).trace,
        (∀ c, e ≠ Effect.callFunction c) ∧
        (∀ f pl it p1 p2 ex hk, e ≠ Effect.nativeCall f pl it p1 p2 ex hk) ∧
        (∀ text, e ≠ Effect.sendTextMessage text))) := by
  refine ⟨?_, ?_, ?_⟩
  · intro h
    simp [canExecuteAction, h]
  · intro h
    simp [canExecuteAction, h]
  · intro hbad
    have hrun : useItemEx env r player fromPos toPos toStackPos item isHotkey creatureId =
        ⟨false, chargeCooldown player env.OTSYS_TIME env.EX_ACTIONS_DELAY_INTERVAL,
          (canExecuteAction env.canThrowObjectTo a player.position toPos).queries.map
              Effect.sightQuery ++
            [Effect.sendCancelMessage
              (canExecuteAction env.canThrowObjectTo a player.position toPos).ret]⟩ := by
      simp [useItemEx, hgate, hres, chargeCooldown_position, hbad]
    rw [hrun]
    refine ⟨rfl, rfl, rfl, ?_⟩
    intro e he
    simp only [List.mem_append, List.mem_map, List.mem_singleton] at he
    rcases he with ⟨q, _, rfl⟩ | rfl <;> simp

/-- Witness for C9: an adjacent-use script registered for type 100, used on a
target two tiles away. -/
theorem useItemEx_legality_witness :
    (useItemEx (sampleEnv 0) sampleItemRegistry samplePlayer ⟨100, 100, 7⟩ ⟨102, 100, 7⟩ 0
      sampleItem true 0).val = false ∧
    (useItemEx (sampleEnv 0) sampleItemRegistry samplePlayer ⟨100, 100, 7⟩ ⟨102, 100, 7⟩ 0
      sampleItem true 0).trace =
      [Effect.sendCancelMessage ReturnValue.RETURNVALUE_TOOFARAWAY] :=
  ⟨((useItemEx_legality (sampleEnv 0) sampleItemRegistry samplePlayer ⟨100, 100, 7⟩
      ⟨102, 100, 7⟩ 0 sampleItem true 0 (sampleAction 3) (by decide) (by decide)).2.2
      (by decide)).1,
   ((useItemEx_legality (sampleEnv 0) sampleItemRegistry samplePlayer ⟨100, 100, 7⟩
      ⟨102, 100, 7⟩ 0 sampleItem true 0 (sampleAction 3) (by decide) (by decide)).2.2
      (by decide)).2.1⟩

theorem useContainer_nextAction (env : Env) (player : Player) (index : Nat)
    (container : Container) :
    (useContainer env player index container).player.nextAction = player.nextAction := by
  unfold useContainer
  cases container.depotLocker <;> simp only [] <;> split_ifs <;>
    simp [closeContainer, addContainer, setLastDepotId]

theorem builtinUse_nextAction (env : Env) (player : Player) (index : Nat) (item : Item) :
    (builtinUse env player index item).player.nextAction = player.nextAction := by
  unfold builtinUse
  cases item.bed with
  | some bed =>
    simp only []
    split_ifs <;> simp [setBedItem]
  | none =>
    cases item.container with
    | some container => exact useContainer_nextAction env player index container
    | none =>
      simp only []
      split_ifs <;> simp [setWriteItem]

theorem internalUseItem_nextAction (env : Env) (r : Registry) (player : Player)
    (pos : Position) (index : Nat) (item : Item) (isHotkey : Bool) :
    (internalUseItem env r player pos index item isHotkey).player.nextAction =
      player.nextAction := by
  unfold internalUseItem
  split_ifs <;> simp [builtinUse_nextAction]

theorem useItem_accepted_nextAction (env : Env) (r : Registry) (player : Player)
    (pos : Position) (index : Nat) (item : Item) (isHotkey : Bool)
    (hgate : canDoAction player env.OTSYS_TIME = true) :
    (useItem env r player pos index item isHotkey).player.nextAction =
      env.OTSYS_TIME + env.ACTIONS_DELAY_INTERVAL := by
  unfold useItem
  simp only [hgate, Bool.not_true, Bool.false_eq_true, if_false]
  split_ifs <;>
    simp [internalUseItem_nextAction, chargeCooldown, stopWalk, setNextAction,
      setNextActionTask]

theorem useItem_blocked (env : Env) (r : Registry) (player : Player)
    (pos : Position) (index : Nat) (item : Item) (isHotkey : Bool)
    (hgate : canDoAction player env.OTSYS_TIME = false) :
    (useItem env r player pos index item isHotkey).val = false ∧
    (useItem env r player pos index item isHotkey).trace = [] ∧
    (useItem env r player pos index item isHotkey).player = player := by
  simp [useItem, hgate]

/-- C10: with the gate "now ≥ next allowed action" and a configured delay
`d > 0`, after a `useItem` call accepted at time `t0` a further `useItem` call of
the same actor at a time `t` with `t0 ≤ t < t0 + d` returns false with no effect
at all and the actor exactly as it was (no lookup, no handler, no message, no
change of cooldown, queued task, walk or containers), whatever the registry,
item and collaborators of that call; at a time `t ≥ t0 + d` the actor passes the
gate, and the call charges the cooldown again. -/
theorem useItem_throttle (env0 env1 : Env) (r0 r1 : Registry) (player : Player)
    (pos0 pos1 : Position) (index0 index1 : Nat) (item0 item1 : Item)
    (isHotkey0 isHotkey1 : Bool) (d : Int) (_hd : 0 < d)
    (hdelay : env0.ACTIONS_DELAY_INTERVAL = d)
    (hgate : canDoAction player env0.OTSYS_TIME = true) :
    (env0.OTSYS_TIME ≤ env1.OTSYS_TIME → env1.OTSYS_TIME < env0.OTSYS_TIME + d →
      canDoAction (useItem env0 r0 player pos0 index0 item0 isHotkey0).player
          env1.OTSYS_TIME = false ∧
      (useItem env1 r1 (useItem env0 r0 player pos0 index0 item0 isHotkey0).player
          pos1 index1 item1 isHotkey1).val = false ∧
      (useItem env1 r1 (useItem env0 r0 player pos0 index0 item0 isHotkey0).player
          pos1 index1 item1 isHotkey1).trace = [] ∧
      (useItem env1 r1 (useItem env0 r0 player pos0 index0 item0 isHotkey0).player
          pos1 index1 item1 isHotkey1).player =
        (useItem env0 r0 player pos0 index0 item0 isHotkey0).player) ∧
    (env0.OTSYS_TIME + d ≤ env1.OTSYS_TIME →
      canDoAction (useItem env0 r0 player pos0 index0 item0 isHotkey0).player
          env1.OTSYS_TIME = true ∧
      (useItem env1 r1 (useItem env0 r0 player pos0 index0 item0 isHotkey0).player
          pos1 index1 item1 isHotkey1).player.nextAction =
        env1.OTSYS_TIME + env1.ACTIONS_DELAY_INTERVAL) := by
  have hnext := useItem_accepted_nextAction env0 r0 player pos0 index0 item0 isHotkey0 hgate
  rw [hdelay] at hnext
  constructor
  · intro _ hlt
    have hblocked : canDoAction (useItem env0 r0 player pos0 index0 item0 isHotkey0).player
        env1.OTSYS_TIME = false := by
      simp only [canDoAction, hnext, decide_eq_false_iff_not, not_le]
      exact hlt
    have hrun := useItem_blocked env1 r1 _ pos1 index1 item1 isHotkey1 hblocked
    exact ⟨hblocked, hrun.1, hrun.2.1, hrun.2.2⟩
  · intro hge
    have hpass : canDoAction (useItem env0 r0 player pos0 index0 item0 isHotkey0).player
        env1.OTSYS_TIME = true := by
      simp only [canDoAction, hnext, decide_eq_true_eq]
      exact hge
    exact ⟨hpass, useItem_accepted_nextAction env1 r1 _ pos1 index1 item1 isHotkey1 hpass⟩

/-- Witness for C10: delay 500 and calls at times 0, 100 and 600; the call at
100 is blocked without any effect, the call at 600 passes the gate. -/
theorem useItem_throttle_witness :
    (useItem (sampleEnv 100) sampleItemRegistry
        (useItem (sampleEnv 0) sampleItemRegistry samplePlayer ⟨100, 100, 7⟩ 0 sampleItem
          false).player ⟨100, 100, 7⟩ 0 sampleItem false).val = false ∧
    (useItem (sampleEnv 100) sampleItemRegistry
        (useItem (sampleEnv 0) sampleItemRegistry samplePlayer ⟨100, 100, 7⟩ 0 sampleItem
          false).player ⟨100, 100, 7⟩ 0 sampleItem false).trace = [] ∧
    canDoAction (useItem (sampleEnv 0) sampleItemRegistry samplePlayer ⟨100, 100, 7⟩ 0
        sampleItem false).player (sampleEnv 600).OTSYS_TIME = true :=
  ⟨((useItem_throttle (sampleEnv 0) (sampleEnv 100) sampleItemRegistry sampleItemRegistry
      samplePlayer ⟨100, 100, 7⟩ ⟨100, 100, 7⟩ 0 0 sampleItem sampleItem false false 500
      (by decide) rfl (by decide)).1 (by decide) (by decide)).2.1,
   ((useItem_throttle (sampleEnv 0) (sampleEnv 100) sampleItemRegistry sampleItemRegistry
      samplePlayer ⟨100, 100, 7⟩ ⟨100, 100, 7⟩ 0 0 sampleItem sampleItem false false 500
      (by decide) rfl (by decide)).1 (by decide) (by decide)).2.2.1,
   ((useItem_throttle (sampleEnv 0) (sampleEnv 600) sampleItemRegistry sampleItemRegistry
      samplePlayer ⟨100, 100, 7⟩ ⟨100, 100, 7⟩ 0 0 sampleItem sampleItem false false 500
      (by decide) rfl (by decide)).2 (by decide)).1⟩

/-! ## Cooldown charge -/

theorem useContainer_nextActionTask (env : Env) (player : Player) (index : Nat)
    (container : Container) :
    (useContainer env player index container).player.nextActionTask =
      player.nextActionTask := by
  unfold useContainer
  cases container.depotLocker <;> simp only [] <;> split_ifs <;>
    simp [closeContainer, addContainer, setLastDepotId]

theorem builtinUse_nextActionTask (env : Env) (player : Player) (index : Nat) (item : Item) :
    (builtinUse env player index item).player.nextActionTask = player.nextActionTask := by
  unfold builtinUse
  cases item.bed with
  | some bed =>
    simp only []
    split_ifs <;> simp [setBedItem]
  | none =>
    cases item.container with
    | some container => exact useContainer_nextActionTask env player index container
    | none =>
      simp only []
      split_ifs <;> simp [setWriteItem]

theorem internalUseItem_nextActionTask (env : Env) (r : Registry) (player : Player)
    (pos : Position) (index : Nat) (item : Item) (isHotkey : Bool) :
    (internalUseItem env r player pos index item isHotkey).player.nextActionTask =
      player.nextActionTask := by
  unfold internalUseItem
  split_ifs <;> simp [builtinUse_nextActionTask]

theorem useItem_accepted_nextActionTask (env : Env) (r : Registry) (player : Player)
    (pos : Position) (index : Nat) (item : Item) (isHotkey : Bool)
    (hgate : canDoAction player env.OTSYS_TIME = true) :
    (useItem env r player pos index item isHotkey).player.nextActionTask = none := by
  unfold useItem
  simp only [hgate, Bool.not_true, Bool.false_eq_true, if_false]
  split_ifs <;>
    simp [internalUseItem_nextActionTask, chargeCooldown, stopWalk, setNextAction,
      setNextActionTask]

theorem useItemEx_accepted_player (env : Env) (r : Registry) (player : Player)
    (fromPos toPos : Position) (toStackPos : Nat) (item : Item) (isHotkey : Bool)
    (creatureId : Nat) (hgate : canDoAction player env.OTSYS_TIME = true) :
    (useItemEx env r player fromPos toPos toStackPos item isHotkey creatureId).player =
      chargeCooldown player env.OTSYS_TIME env.EX_ACTIONS_DELAY_INTERVAL := by
  unfold useItemEx
  simp only [hgate, Bool.not_true, Bool.false_eq_true, if_false]
  cases getAction r env.getRuneSpell item.ids with
  | none => rfl
  | some action =>
    simp only []
    split_ifs <;> rfl

theorem useItemEx_blocked (env : Env) (r : Registry) (player : Player)
    (fromPos toPos : Position) (toStackPos : Nat) (item : Item) (isHotkey : Bool)
    (creatureId : Nat) (hgate : canDoAction player env.OTSYS_TIME = false) :
    useItemEx env r player fromPos toPos toStackPos item isHotkey creatureId =
      ⟨false, player, []⟩ := by
  simp [useItemEx, hgate]

theorem canDoAction_cases (player : Player) (now : Int) :
    (canDoAction player now = true ∧ player.nextAction ≤ now) ∨
      canDoAction player now = false := by
  unfold canDoAction
  by_cases h : player.nextAction ≤ now
  · left
    exact ⟨by simp [h], h⟩
  · right
    simp [h]

/-- C11: a `useItem` or `useItemEx` call that passes the gate leaves the actor
without a queued action task and with the next-allowed-action timestamp equal
to the current time plus the configured delay (the adjacent-use delay for
`useItem`, the extended-use delay for `useItemEx`), whatever the registry, the
item and the collaborators make of the rest of the call; and with a
non-negative delay no call, accepted or rejected, lowers the timestamp. -/
theorem cooldown_charged (env : Env) (r : Registry) (player : Player)
    (pos fromPos toPos : Position) (index toStackPos : Nat) (item : Item) (isHotkey : Bool)
    (creatureId : Nat) :
    (canDoAction player env.OTSYS_TIME = true →
      (useItem env r player pos index item isHotkey).player.nextActionTask = none ∧
      (useItem env r player pos index item isHotkey).player.nextAction =
        env.OTSYS_TIME + env.ACTIONS_DELAY_INTERVAL ∧
      (useItemEx env r player fromPos toPos toStackPos item isHotkey
        creatureId).player.nextActionTask = none ∧
      (useItemEx env r player fromPos toPos toStackPos item isHotkey
        creatureId).player.nextAction = env.OTSYS_TIME + env.EX_ACTIONS_DELAY_INTERVAL) ∧
    (0 ≤ env.ACTIONS_DELAY_INTERVAL →
      player.nextAction ≤ (useItem env r player pos index item isHotkey).player.nextAction) ∧
    (0 ≤ env.EX_ACTIONS_DELAY_INTERVAL →
      player.nextAction ≤ (useItemEx env r player fromPos toPos toStackPos item isHotkey
        creatureId).player.nextAction) := by
  have hex : canDoAction player env.OTSYS_TIME = true →
      (useItemEx env r player fromPos toPos toStackPos item isHotkey
        creatureId).player.nextActionTask = none ∧
      (useItemEx env r player fromPos toPos toStackPos item isHotkey
        creatureId).player.nextAction = env.OTSYS_TIME + env.EX_ACTIONS_DELAY_INTERVAL := by
    intro hgate
    rw [useItemEx_accepted_player env r player fromPos toPos toStackPos item isHotkey
      creatureId hgate]
    exact ⟨rfl, rfl⟩
  refine ⟨?_, ?_, ?_⟩
  · intro hgate
    exact ⟨useItem_accepted_nextActionTask env r player pos index item isHotkey hgate,
      useItem_accepted_nextAction env r player pos index item isHotkey hgate,
      (hex hgate).1, (hex hgate).2⟩
  · intro hd
    rcases canDoAction_cases player env.OTSYS_TIME with ⟨hgate, hle⟩ | hgate
    · rw [useItem_accepted_nextAction env r player pos index item isHotkey hgate]
      omega
    · rw [(useItem_blocked env r player pos index item isHotkey hgate).2.2]
  · intro hd
    rcases canDoAction_cases player env.OTSYS_TIME with ⟨hgate, hle⟩ | hgate
    · rw [(hex hgate).2]
      omega
    · rw [useItemEx_blocked env r player fromPos toPos toStackPos item isHotkey
        creatureId hgate]

/-- Witness for C11: the sample actor with a queued task uses a plain item at
time 40; the task is gone and the timestamps are 540 and 1040. -/
theorem cooldown_charged_witness :
    (useItem (sampleEnv 40) emptyRegistry samplePlayer ⟨100, 100, 7⟩ 0 sampleItem
      false).player.nextActionTask = none ∧
    (useItem (sampleEnv 40) emptyRegistry samplePlayer ⟨100, 100, 7⟩ 0 sampleItem
      false).player.nextAction = 540 ∧
    (useItemEx (sampleEnv 40) emptyRegistry samplePlayer ⟨100, 100, 7⟩ ⟨101, 100, 7⟩ 0
      sampleItem false 0).player.nextActionTask = none ∧
    (useItemEx (sampleEnv 40) emptyRegistry samplePlayer ⟨100, 100, 7⟩ ⟨101, 100, 7⟩ 0
      sampleItem false 0).player.nextAction = 1040 :=
  (cooldown_charged (sampleEnv 40) emptyRegistry samplePlayer ⟨100, 100, 7⟩ ⟨100, 100, 7⟩
    ⟨101, 100, 7⟩ 0 0 sampleItem false 0).1 (by decide)

/-! ## Built-in rules and handlers -/

theorem executeUse_trace (env : Env) (action : Action) (player : Player) (item : Item)
    (fromPos toPos : PositionEx) (extendedUse isHotkey : Bool) :
    (executeUse env action player item fromPos toPos extendedUse isHotkey).2 =
        [Effect.callStackOverflow] ∨
      ∃ call, (executeUse env action player item fromPos toPos extendedUse isHotkey).2 =
        [Effect.callFunction call] := by
  unfold executeUse
  cases env.reserveScriptEnv
  · left
    rfl
  · right
    exact ⟨_, rfl⟩

theorem executeUse_not_builtin (env : Env) (action : Action) (player : Player) (item : Item)
    (fromPos toPos : PositionEx) (extendedUse isHotkey : Bool) :
    ∀ e ∈ (executeUse env action player item fromPos toPos extendedUse isHotkey).2,
      e.isBuiltin = false ∧ cancelMessages [e] = [] ∧
        (∀ text, e ≠ Effect.sendTextMessage text) := by
  intro e he
  rcases executeUse_trace env action player item fromPos toPos extendedUse isHotkey with h | ⟨c, h⟩
  · rw [h] at he
    simp only [List.mem_singleton] at he
    subst he
    simp [Effect.isBuiltin, cancelMessages]
  · rw [h] at he
    simp only [List.mem_singleton] at he
    subst he
    simp [Effect.isBuiltin, cancelMessages]

theorem callNative_not_builtin (f : NativeFunction) (player : Player) (item : Item)
    (fromPos toPos : PositionEx) (extendedUse isHotkey : Bool) :
    ∀ e ∈ (callNative f player item fromPos toPos extendedUse isHotkey).2,
      e.isBuiltin = false := by
  intro e he
  cases f <;> simp only [callNative, increaseItemId, decreaseItemId, enterMarket] at he
  · simp only [List.mem_cons, List.mem_singleton, List.not_mem_nil, or_false] at he
    rcases he with rfl | rfl | rfl <;> rfl
  · simp only [List.mem_cons, List.mem_singleton, List.not_mem_nil, or_false] at he
    rcases he with rfl | rfl | rfl <;> rfl
  · split_ifs at he <;>
      simp only [List.mem_cons, List.mem_singleton, List.not_mem_nil, or_false] at he
    · subst he
      rfl
    · rcases he with rfl | rfl <;> rfl

theorem invokeInline_not_builtin (env : Env) (r : Registry) (player : Player)
    (pos : Position) (item : Item) (isHotkey : Bool) :
    ∀ e ∈ (invokeInline env r player pos item isHotkey).2, e.isBuiltin = false := by
  intro e he
  unfold invokeInline at he
  cases hres : getAction r env.getRuneSpell item.ids with
  | none => simp [hres] at he
  | some action =>
    simp only [hres] at he
    by_cases hs : action.scripted = true
    · simp only [hs, if_true] at he
      exact (executeUse_not_builtin env action player item _ _ _ _ e he).1
    · simp only [hs, Bool.false_eq_true, if_false] at he
      cases hf : action.function with
      | none => simp [hf] at he
      | some f =>
        simp only [hf] at he
        exact callNative_not_builtin f player item _ _ _ _ e he

theorem showUseHotkeyMessage_not_builtin (env : Env) (item : Item) (count : Nat) :
    ∀ e ∈ showUseHotkeyMessage env item count,
      e.isBuiltin = false ∧ e.isInvocation = false ∧ cancelMessages [e] = [] := by
  intro e he
  unfold showUseHotkeyMessage at he
  split_ifs at he <;> simp only [List.mem_singleton] at he <;> subst he <;>
    simp [Effect.isBuiltin, Effect.isInvocation, cancelMessages]

theorem internalUseItem_eq (env : Env) (r : Registry) (player : Player) (pos : Position)
    (index : Nat) (item : Item) (isHotkey : Bool) :
    internalUseItem env r player pos index item isHotkey =
      if doorDenied player item then
        ⟨ReturnValue.RETURNVALUE_CANNOTUSETHISOBJECT, player, []⟩
      else if (invokeInline env r player pos item isHotkey).1 then
        ⟨ReturnValue.RETURNVALUE_NOERROR, player,
          (invokeInline env r player pos item isHotkey).2⟩
      else
        ⟨(builtinUse env player index item).val, (builtinUse env player index item).player,
          (invokeInline env r player pos item isHotkey).2 ++
            (builtinUse env player index item).trace⟩ := rfl

theorem useItem_accepted_eq (env : Env) (r : Registry) (player : Player) (pos : Position)
    (index : Nat) (item : Item) (isHotkey : Bool)
    (hgate : canDoAction player env.OTSYS_TIME = true) :
    useItem env r player pos index item isHotkey =
      if (internalUseItem env r
          (chargeCooldown player env.OTSYS_TIME env.ACTIONS_DELAY_INTERVAL) pos index item
          isHotkey).val ≠ ReturnValue.RETURNVALUE_NOERROR then
        ⟨false, (internalUseItem env r
            (chargeCooldown player env.OTSYS_TIME env.ACTIONS_DELAY_INTERVAL) pos index item
            isHotkey).player,
          (if isHotkey then showUseHotkeyMessage env item (env.getItemTypeCount item.ids.id)
            else []) ++
          (internalUseItem env r
            (chargeCooldown player env.OTSYS_TIME env.ACTIONS_DELAY_INTERVAL) pos index item
            isHotkey).trace ++
          [Effect.sendCancelMessage (internalUseItem env r
            (chargeCooldown player env.OTSYS_TIME env.ACTIONS_DELAY_INTERVAL) pos index item
            isHotkey).val]⟩
      else
        ⟨true, (internalUseItem env r
            (chargeCooldown player env.OTSYS_TIME env.ACTIONS_DELAY_INTERVAL) pos index item
            isHotkey).player,
          (if isHotkey then showUseHotkeyMessage env item (env.getItemTypeCount item.ids.id)
            else []) ++
          (internalUseItem env r
            (chargeCooldown player env.OTSYS_TIME env.ACTIONS_DELAY_INTERVAL) pos index item
            isHotkey).trace⟩ := by
  simp [useItem, hgate]

theorem hotkey_not_builtin (env : Env) (item : Item) (isHotkey : Bool) :
    ∀ e ∈ (if isHotkey then showUseHotkeyMessage env item (env.getItemTypeCount item.ids.id)
      else []), e.isBuiltin = false ∧ e.isInvocation = false ∧ cancelMessages [e] = [] := by
  intro e he
  cases isHotkey
  · simp at he
  · exact showUseHotkeyMessage_not_builtin env item _ e (by simpa using he)

/-- C12 as stated fails: type 100 resolves to a script whose callback returns
false, and the `useItem` call on the chest then opens it under slot 3. -/
theorem useItem_failed_handler_opens_container :
    getAction sampleItemRegistry (sampleEnv 0).getRuneSpell sampleChest.ids =
      some (sampleAction 3) ∧
    (useItem (sampleEnv 0) sampleItemRegistry samplePlayer ⟨100, 100, 7⟩ 3 sampleChest
      false).val = true ∧
    Effect.onSendContainer 70 ∈
      (useItem (sampleEnv 0) sampleItemRegistry samplePlayer ⟨100, 100, 7⟩ 3 sampleChest
        false).trace ∧
    (useItem (sampleEnv 0) sampleItemRegistry samplePlayer ⟨100, 100, 7⟩ 3 sampleChest
      false).player.openContainers = [(3, 70)] ∧
    samplePlayer.openContainers = [] := by
  decide

/-- C12, amended: in a `useItem` call that passes the gate, for an item whose
action resolves and whose handler, invoked inline, returns true, no bed,
container, depot or text-window effect occurs: the trace has no built-in
effect and the actor is changed by the cooldown charge alone. -/
theorem useItem_handler_success_skips_builtin (env : Env) (r : Registry) (player : Player)
    (pos : Position) (index : Nat) (item : Item) (isHotkey : Bool) (a : Action)
    (hgate : canDoAction player env.OTSYS_TIME = true)
    (_hres : getAction r env.getRuneSpell item.ids = some a)
    (hok : (invokeInline env r
      (chargeCooldown player env.OTSYS_TIME env.ACTIONS_DELAY_INTERVAL) pos item
      isHotkey).1 = true) :
    (∀ e ∈ (useItem env r player pos index item isHotkey).trace, e.isBuiltin = false) ∧
    (useItem env r player pos index item isHotkey).player =
      chargeCooldown player env.OTSYS_TIME env.ACTIONS_DELAY_INTERVAL ∧
    (useItem env r player pos index item isHotkey).player.openContainers =
      player.openContainers ∧
    (useItem env r player pos index item isHotkey).player.bedItem = player.bedItem ∧
    (useItem env r player pos index item isHotkey).player.lastDepotId = player.lastDepotId ∧
    (useItem env r player pos index item isHotkey).player.writeItem = player.writeItem := by
  have hhot := hotkey_not_builtin env item isHotkey
  have hinv := invokeInline_not_builtin env r
    (chargeCooldown player env.OTSYS_TIME env.ACTIONS_DELAY_INTERVAL) pos item isHotkey
  rw [useItem_accepted_eq env r player pos index item isHotkey hgate, internalUseItem_eq]
  by_cases hdoor : doorDenied
      (chargeCooldown player env.OTSYS_TIME env.ACTIONS_DELAY_INTERVAL) item = true
  · simp only [hdoor, if_true, ne_eq, not_false_eq_true, reduceCtorEq]
    refine ⟨?_, by simp [chargeCooldown, stopWalk, setNextAction, setNextActionTask]⟩
    intro e he
    simp only [List.mem_append, List.mem_singleton, List.not_mem_nil, or_false] at he
    rcases he with he | he
    · exact (hhot e he).1
    · subst he
      rfl
  · simp only [hdoor, hok, if_true, Bool.false_eq_true, if_false, ne_eq, not_true_eq_false]
    refine ⟨?_, by simp [chargeCooldown, stopWalk, setNextAction, setNextActionTask]⟩
    intro e he
    simp only [List.mem_append] at he
    rcases he with he | he
    · exact (hhot e he).1
    · exact hinv e he

/-- Witness for C12 (amended): the chest of type 100 with a script whose
callback returns true stays closed. -/
theorem useItem_handler_success_skips_builtin_witness :
    (∀ e ∈ (useItem (sampleEnvOk 0) sampleItemRegistry samplePlayer ⟨100, 100, 7⟩ 3
      sampleChest false).trace, e.isBuiltin = false) ∧
    (useItem (sampleEnvOk 0) sampleItemRegistry samplePlayer ⟨100, 100, 7⟩ 3 sampleChest
      false).player.openContainers = samplePlayer.openContainers :=
  ⟨(useItem_handler_success_skips_builtin (sampleEnvOk 0) sampleItemRegistry samplePlayer
      ⟨100, 100, 7⟩ 3 sampleChest false (sampleAction 3) (by decide) (by decide)
      (by decide)).1,
   (useItem_handler_success_skips_builtin (sampleEnvOk 0) sampleItemRegistry samplePlayer
      ⟨100, 100, 7⟩ 3 sampleChest false (sampleAction 3) (by decide) (by decide)
      (by decide)).2.2.1⟩

/-! ## Container toggle -/

theorem getContainerID_eq (l : List (Nat × Nat)) (c : Nat) :
    (match l.find? (fun e => e.2 == c) with
      | some e => (e.1 : Int)
      | none => -1) ≠ -1 →
    ∃ e, l.find? (fun e => e.2 == c) = some e := by
  intro h
  cases hf : l.find? (fun e => e.2 == c) with
  | none => simp [hf] at h
  | some e => exact ⟨e, rfl⟩

theorem useItemEx_oneSlot (env : Env) (r : Registry) (player : Player)
    (fromPos toPos : Position) (toStackPos : Nat) (item : Item) (isHotkey : Bool)
    (creatureId : Nat) (hwf : oneSlotPerContainer player) :
    oneSlotPerContainer
      (useItemEx env r player fromPos toPos toStackPos item isHotkey creatureId).player := by
  rcases canDoAction_cases player env.OTSYS_TIME with ⟨hgate, _⟩ | hgate
  · rw [useItemEx_accepted_player env r player fromPos toPos toStackPos item isHotkey
      creatureId hgate]
    exact hwf
  · rw [useItemEx_blocked env r player fromPos toPos toStackPos item isHotkey creatureId
      hgate]
    exact hwf

/-- C14 as stated fails: with the extended flag false and the source item itself
resolved at the target position, the fourth argument is that item together
with the target position and its stack position, not the empty thing. -/
theorem executeUse_plain_use_passes_thing :
    (sampleEnvSelf 0).reserveScriptEnv = true ∧
    (sampleEnvSelf 0).internalGetThing ⟨⟨100, 100, 7⟩, 1⟩ = some sampleItem.addr ∧
    executeUse (sampleEnvSelf 0) (sampleAction 3) samplePlayer sampleItem
        ⟨⟨100, 100, 7⟩, 1⟩ ⟨⟨100, 100, 7⟩, 1⟩ false false =
      (true, [Effect.callFunction
        ⟨3, 1, 50, ⟨100, 100, 7⟩, 1, some 50, ⟨100, 100, 7⟩, 1, false⟩]) := by
  decide

/-- C14, amended: once the script slot is reserved, `executeUse` invokes the
callback once and returns its result. The arguments are the actor, the item,
the source position with its stack position, the target and the hotkey flag.
The target is the empty thing with the zero position when nothing resolves at
the target position, or when the extended flag is true and the thing resolved
is the source item itself; otherwise it is the thing resolved at the target
position together with that position and its stack position. -/
theorem executeUse_arguments (env : Env) (action : Action) (player : Player) (item : Item)
    (fromPos toPos : PositionEx) (extendedUse isHotkey : Bool)
    (hreserved : env.reserveScriptEnv = true) :
    ∃ call : ScriptCall,
      executeUse env action player item fromPos toPos extendedUse isHotkey =
        (env.callFunction call, [Effect.callFunction call]) ∧
      call.scriptId = action.scriptId ∧ call.player = player.guid ∧
      call.item = item.addr ∧ call.fromPos = fromPos.pos ∧
      call.fromStackpos = fromPos.stackpos ∧ call.isHotkey = isHotkey ∧
      ((env.internalGetThing toPos = none ∨
          (extendedUse = true ∧ env.internalGetThing toPos = some item.addr)) →
        call.target = none ∧ call.toPos = ⟨0, 0, 0⟩ ∧ call.toStackpos = 0) ∧
      (∀ thing, env.internalGetThing toPos = some thing →
          (extendedUse = false ∨ thing ≠ item.addr) →
        call.target = some thing ∧ call.toPos = toPos.pos ∧
          call.toStackpos = toPos.stackpos) := by
  unfold executeUse
  simp only [hreserved, Bool.not_true, Bool.false_eq_true, if_false]
  refine ⟨_, rfl, ?_⟩
  cases hthing : env.internalGetThing toPos with
  | none => simp
  | some thing =>
    cases extendedUse
    · simp
    · by_cases hsame : thing = item.addr
      · simp [hsame]
      · simp [hsame]

/-- Witness for C14 (amended): a plain use where the item itself resolves at
the target position. -/
theorem executeUse_arguments_witness :
    ∃ call : ScriptCall,
      executeUse (sampleEnvSelf 0) (sampleAction 3) samplePlayer sampleItem
          ⟨⟨100, 100, 7⟩, 1⟩ ⟨⟨100, 100, 7⟩, 1⟩ false false =
        ((sampleEnvSelf 0).callFunction call, [Effect.callFunction call]) ∧
      call.scriptId = (sampleAction 3).scriptId ∧ call.player = samplePlayer.guid ∧
      call.item = sampleItem.addr ∧ call.fromPos = ⟨100, 100, 7⟩ ∧
      call.fromStackpos = 1 ∧ call.isHotkey = false ∧
      (((sampleEnvSelf 0).internalGetThing ⟨⟨100, 100, 7⟩, 1⟩ = none ∨
          (false = true ∧
            (sampleEnvSelf 0).internalGetThing ⟨⟨100, 100, 7⟩, 1⟩ = some sampleItem.addr)) →
        call.target = none ∧ call.toPos = ⟨0, 0, 0⟩ ∧ call.toStackpos = 0) ∧
      (∀ thing, (sampleEnvSelf 0).internalGetThing ⟨⟨100, 100, 7⟩, 1⟩ = some thing →
          (false = false ∨ thing ≠ sampleItem.addr) →
        call.target = some thing ∧ call.toPos = ⟨100, 100, 7⟩ ∧ call.toStackpos = 1) :=
  executeUse_arguments (sampleEnvSelf 0) (sampleAction 3) samplePlayer sampleItem
    ⟨⟨100, 100, 7⟩, 1⟩ ⟨⟨100, 100, 7⟩, 1⟩ false false rfl

/-! ## Invocation -/

/-- C15, evaluated at the failing input: type 100 resolves to an action whose
handler is the native function `increaseItemId`. The `useItem` call invokes the
native function; the `useItemEx` call on an adjacent target invokes the script
callback through `executeUse` instead, makes no native call and returns the
callback's result. -/
theorem useItemEx_native_action_runs_script :
    getAction sampleNativeRegistry (sampleEnvOk 0).getRuneSpell sampleItem.ids =
      some sampleNativeAction ∧
    sampleNativeAction.scripted = false ∧
    sampleNativeAction.function = some NativeFunction.increaseItemId ∧
    (useItem (sampleEnvOk 0) sampleNativeRegistry samplePlayer ⟨100, 100, 7⟩ 0 sampleItem
      false).trace =
      [Effect.nativeCall NativeFunction.increaseItemId 1 50 ⟨⟨100, 100, 7⟩, 1⟩
          ⟨⟨100, 100, 7⟩, 1⟩ false false,
        Effect.transformItem 50 101, Effect.startDecay 50 101] ∧
    (useItemEx (sampleEnvOk 0) sampleNativeRegistry samplePlayer ⟨100, 100, 7⟩
      ⟨101, 100, 7⟩ 0 sampleItem false 0).trace =
      [Effect.callFunction ⟨0, 1, 50, ⟨100, 100, 7⟩, 1, none, ⟨0, 0, 0⟩, 0, false⟩] ∧
    (useItemEx (sampleEnvOk 0) sampleNativeRegistry samplePlayer ⟨100, 100, 7⟩
      ⟨101, 100, 7⟩ 0 sampleItem false 0).val = true ∧
    (useItemEx (sampleEnv 0) sampleNativeRegistry samplePlayer ⟨100, 100, 7⟩
      ⟨101, 100, 7⟩ 0 sampleItem false 0).val = false := by
  decide

theorem cancelMessages_append (l1 l2 : List Effect) :
    cancelMessages (l1 ++ l2) = cancelMessages l1 ++ cancelMessages l2 := by
  induction l1 with
  | nil => rfl
  | cons e t ih => cases e <;> simp [cancelMessages, ih]

theorem cancelMessages_eq_nil (l : List Effect) (h : ∀ e ∈ l, cancelMessages [e] = []) :
    cancelMessages l = [] := by
  induction l with
  | nil => rfl
  | cons e t ih =>
    have h1 : cancelMessages [e] = [] := h e (List.mem_cons_self e t)
    have h2 : cancelMessages t = [] := ih (fun x hx => h x (List.mem_cons_of_mem e hx))
    have h3 := cancelMessages_append [e] t
    simp only [List.singleton_append] at h3
    rw [h3, h1, h2]
    rfl

theorem cancelMessages_sightQueries (qs : List SightQuery) :
    cancelMessages (qs.map Effect.sightQuery) = [] := by
  apply cancelMessages_eq_nil
  intro e he
  obtain ⟨q, _, rfl⟩ := List.mem_map.mp he
  rfl

theorem cancelMessages_hotkey (env : Env) (item : Item) (isHotkey : Bool) :
    cancelMessages (if isHotkey then
      showUseHotkeyMessage env item (env.getItemTypeCount item.ids.id) else []) = [] :=
  cancelMessages_eq_nil _ (fun e he => (hotkey_not_builtin env item isHotkey e he).2.2)

theorem cancelMessages_executeUse (env : Env) (action : Action) (player : Player)
    (item : Item) (fromPos toPos : PositionEx) (extendedUse isHotkey : Bool) :
    cancelMessages (executeUse env action player item fromPos toPos extendedUse isHotkey).2 =
      [] :=
  cancelMessages_eq_nil _ (fun e he =>
    (executeUse_not_builtin env action player item fromPos toPos extendedUse isHotkey e he).2.1)

/-- C16: a `useItemEx` call that passes the gate, resolves the action `a` and
gets the verdict "no error" invokes `executeUse` with the extended flag set. A
failed slot reservation makes `executeUse` return false after logging the call
stack overflow. When `executeUse` returns false the call returns false and the
cancel messages it sends are exactly one "cannot use this object" if the action
has no error handler of its own and none if it has one; when `executeUse`
returns true the call returns true and sends no cancel message. -/
theorem useItemEx_invocation_result (env : Env) (r : Registry) (player : Player)
    (fromPos toPos : Position) (toStackPos : Nat) (item : Item) (isHotkey : Bool)
    (creatureId : Nat) (a : Action) (hgate : canDoAction player env.OTSYS_TIME = true)
    (hres : getAction r env.getRuneSpell item.ids = some a)
    (hlegal : (canExecuteAction env.canThrowObjectTo a player.position toPos).ret =
      ReturnValue.RETURNVALUE_NOERROR) :
    (env.reserveScriptEnv = false →
      executeUse env a (chargeCooldown player env.OTSYS_TIME env.EX_ACTIONS_DELAY_INTERVAL)
        item ⟨fromPos, item.thingIndex⟩ ⟨toPos, (toStackPos : Int)⟩ true isHotkey =
        (false, [Effect.callStackOverflow])) ∧
    ((executeUse env a (chargeCooldown player env.OTSYS_TIME env.EX_ACTIONS_DELAY_INTERVAL)
        item ⟨fromPos, item.thingIndex⟩ ⟨toPos, (toStackPos : Int)⟩ true isHotkey).1 = false →
      (useItemEx env r player fromPos toPos toStackPos item isHotkey creatureId).val = false ∧
      (a.ownErrorHandler = false →
        cancelMessages
          (useItemEx env r player fromPos toPos toStackPos item isHotkey creatureId).trace =
          [ReturnValue.RETURNVALUE_CANNOTUSETHISOBJECT]) ∧
      (a.ownErrorHandler = true →
        cancelMessages
          (useItemEx env r player fromPos toPos toStackPos item isHotkey creatureId).trace =
          [])) ∧
    ((executeUse env a (chargeCooldown player env.OTSYS_TIME env.EX_ACTIONS_DELAY_INTERVAL)
        item ⟨fromPos, item.thingIndex⟩ ⟨toPos, (toStackPos : Int)⟩ true isHotkey).1 = true →
      (useItemEx env r player fromPos toPos toStackPos item isHotkey creatureId).val = true ∧
      cancelMessages
        (useItemEx env r player fromPos toPos toStackPos item isHotkey creatureId).trace =
        []) := by
  have hc1 := cancelMessages_sightQueries
    (canExecuteAction env.canThrowObjectTo a player.position toPos).queries
  have hc2 := cancelMessages_hotkey env item isHotkey
  have hc3 := cancelMessages_executeUse env a
    (chargeCooldown player env.OTSYS_TIME env.EX_ACTIONS_DELAY_INTERVAL) item
    ⟨fromPos, item.thingIndex⟩ ⟨toPos, (toStackPos : Int)⟩ true isHotkey
  refine ⟨?_, ?_, ?_⟩
  · intro hfail
    simp [executeUse, hfail]
  · intro hused
    refine ⟨?_, ?_, ?_⟩
    · cases hown : a.ownErrorHandler <;>
        simp [useItemEx, hgate, hres, chargeCooldown_position, hlegal, hused, hown]
    · intro hown
      simp [useItemEx, hgate, hres, chargeCooldown_position, hlegal, hused, hown,
        cancelMessages_append, hc1, hc2, hc3, cancelMessages]
    · intro hown
      simp [useItemEx, hgate, hres, chargeCooldown_position, hlegal, hused, hown,
        cancelMessages_append, hc1, hc2, hc3]
  · intro hused
    constructor
    · simp [useItemEx, hgate, hres, chargeCooldown_position, hlegal, hused]
    · simp [useItemEx, hgate, hres, chargeCooldown_position, hlegal, hused,
        cancelMessages_append, hc1, hc2, hc3]

/-- Witness for C16: an adjacent-use script on an adjacent target whose callback
returns false; the action has no error handler of its own. -/
theorem useItemEx_invocation_result_witness :
    (useItemEx (sampleEnv 0) sampleItemRegistry samplePlayer ⟨100, 100, 7⟩ ⟨101, 100, 7⟩ 0
      sampleItem true 0).val = false ∧
    cancelMessages (useItemEx (sampleEnv 0) sampleItemRegistry samplePlayer ⟨100, 100, 7⟩
      ⟨101, 100, 7⟩ 0 sampleItem true 0).trace =
      [ReturnValue.RETURNVALUE_CANNOTUSETHISOBJECT] :=
  ⟨((useItemEx_invocation_result (sampleEnv 0) sampleItemRegistry samplePlayer
      ⟨100, 100, 7⟩ ⟨101, 100, 7⟩ 0 sampleItem true 0 (sampleAction 3) (by decide)
      (by decide) (by decide)).2.1 (by decide)).1,
   ((useItemEx_invocation_result (sampleEnv 0) sampleItemRegistry samplePlayer
      ⟨100, 100, 7⟩ ⟨101, 100, 7⟩ 0 sampleItem true 0 (sampleAction 3) (by decide)
      (by decide) (by decide)).2.1 (by decide)).2.1 rfl⟩

/-! ## Teardown theorems -/

theorem assign_addrs (m : ActionUseMap) (k : Nat) (a : Action) :
    ∀ x ∈ (m.assign k a).addrs, x ∈ m.addrs ∨ x = a.addr := by
  induction m with
  | nil =>
    intro x hx
    simp [ActionUseMap.assign, ActionUseMap.addrs] at hx
    exact Or.inr hx
  | cons e rest ih =>
    obtain ⟨k0, v0⟩ := e
    intro x hx
    by_cases hk : k0 = k
    · simp only [ActionUseMap.assign, hk, if_true, ActionUseMap.addrs, List.map_cons,
        List.mem_cons] at hx
      rcases hx with hx | hx
      · exact Or.inr hx
      · left
        simp only [ActionUseMap.addrs, List.map_cons, List.mem_cons]
        exact Or.inr hx
    · simp only [ActionUseMap.assign, hk, if_false, ActionUseMap.addrs, List.map_cons,
        List.mem_cons] at hx
      rcases hx with hx | hx
      · left
        simp only [ActionUseMap.addrs, List.map_cons, List.mem_cons]
        exact Or.inl hx
      · rcases ih x hx with h | h
        · left
          simp only [ActionUseMap.addrs, List.map_cons, List.mem_cons]
          exact Or.inr h
        · exact Or.inr h

theorem rangeLoop_addrs (tb : Table) (action : Action) (fromId toId : Nat) :
    ∀ (fuel : Nat) (m : ActionUseMap) (iterId : Nat) (success : Bool)
      (out : List Diagnostic) (res : ActionUseMap × Bool × List Diagnostic),
      rangeLoop tb action fromId toId fuel m iterId success out = some res →
      ∀ x ∈ res.1.addrs, x ∈ m.addrs ∨ x = action.addr := by
  intro fuel
  induction fuel with
  | zero =>
    intro m iterId success out res h
    simp [rangeLoop] at h
  | succ f ih =>
    intro m iterId success out res h x hx
    unfold rangeLoop at h
    split_ifs at h with h1 h2
    · exact ih m _ success _ res h x hx
    · rcases ih _ _ true out res h x hx with hm | hm
      · exact assign_addrs m _ action x hm
      · exact Or.inr hm
    · simp only [Option.some.injEq] at h
      subst h
      exact Or.inl hx

theorem registerRange_addrs (fuel : Nat) (r : Registry) (tb : Table) (action : Action)
    (fromId toId : Nat) (res : RegisterResult)
    (h : registerRange fuel r tb action fromId toId = some res) :
    (∀ tb2, tb2 ≠ tb → res.registry.table tb2 = r.table tb2) ∧
    ∀ x ∈ (res.registry.table tb).addrs, x ∈ (r.table tb).addrs ∨ x = action.addr := by
  unfold registerRange at h
  cases hmap : registerRangeMap fuel tb action fromId toId (r.table tb) with
  | none => simp [hmap] at h
  | some out =>
    obtain ⟨m2, success, diag⟩ := out
    simp only [hmap, Option.some.injEq] at h
    subst h
    refine ⟨fun tb2 h2 => by simp [table_setTable, h2], ?_⟩
    intro x hx
    simp only [table_setTable, if_true] at hx
    unfold registerRangeMap at hmap
    split_ifs at hmap
    · exact rangeLoop_addrs tb action fromId toId fuel _ _ _ _ _ hmap x hx
    · rcases rangeLoop_addrs tb action fromId toId fuel _ _ _ _ _ hmap x hx with hm | hm
      · exact assign_addrs _ _ action x hm
      · exact Or.inr hm

theorem registerSingle_addrs (r : Registry) (tb : Table) (action : Action) (id : Nat) :
    (∀ tb2, tb2 ≠ tb → (registerSingle r tb action id).registry.table tb2 = r.table tb2) ∧
    ∀ x ∈ ((registerSingle r tb action id).registry.table tb).addrs,
      x ∈ (r.table tb).addrs ∨ x = action.addr := by
  unfold registerSingle
  split_ifs
  · exact ⟨fun _ _ => rfl, fun x hx => Or.inl hx⟩
  · refine ⟨fun tb2 h2 => by simp [table_setTable, h2], ?_⟩
    intro x hx
    simp only [table_setTable, if_true] at hx
    exact assign_addrs _ _ action x hx

theorem registerEvent_one_table (fuel : Nat) (r : Registry) (action : Action)
    (node : XmlNode) (res : RegisterResult)
    (h : registerEvent fuel r action node = some res) :
    ∃ tb, (∀ tb2, tb2 ≠ tb → res.registry.table tb2 = r.table tb2) ∧
      ∀ x ∈ (res.registry.table tb).addrs, x ∈ (r.table tb).addrs ∨ x = action.addr := by
  have hsame : ∀ (d : List Diagnostic), some (RegisterResult.mk false r d) = some res →
      ∃ tb, (∀ tb2, tb2 ≠ tb → res.registry.table tb2 = r.table tb2) ∧
        ∀ x ∈ (res.registry.table tb).addrs, x ∈ (r.table tb).addrs ∨ x = action.addr := by
    intro d hd
    simp only [Option.some.injEq] at hd
    subst hd
    exact ⟨Table.item, fun _ _ => rfl, fun x hx => Or.inl hx⟩
  have hsingle : ∀ tb id, some (registerSingle r tb action id) = some res →
      ∃ tb, (∀ tb2, tb2 ≠ tb → res.registry.table tb2 = r.table tb2) ∧
        ∀ x ∈ (res.registry.table tb).addrs, x ∈ (r.table tb).addrs ∨ x = action.addr := by
    intro tb id hd
    simp only [Option.some.injEq] at hd
    subst hd
    exact ⟨tb, registerSingle_addrs r tb action id⟩
  unfold registerEvent at h
  split at h
  · exact hsingle _ _ h
  · split at h
    · split at h
      · exact ⟨_, registerRange_addrs _ _ _ _ _ _ _ h⟩
      · exact hsame _ h
    · split at h
      · exact hsingle _ _ h
      · split at h
        · split at h
          · exact ⟨_, registerRange_addrs _ _ _ _ _ _ _ h⟩
          · exact hsame _ h
        · split at h
          · exact hsingle _ _ h
          · split at h
            · split at h
              · exact ⟨_, registerRange_addrs _ _ _ _ _ _ _ h⟩
              · exact hsame _ h
            · exact hsame _ h

theorem reachable_separated (r : Registry) (h : Reachable r) : r.separated := by
  induction h with
  | empty =>
    intro x tb1 tb2 h1 _
    cases tb1 <;> simp [Registry.table, ActionUseMap.addrs] at h1
  | step fuel r action node res _ hfresh hrun ih =>
    obtain ⟨tb, hother, hsub⟩ := registerEvent_one_table fuel r action node res hrun
    intro x tb1 tb2 h1 h2
    by_cases e1 : tb1 = tb
    · by_cases e2 : tb2 = tb
      · rw [e1, e2]
      · subst e1
        rw [hother tb2 e2] at h2
        rcases hsub x h1 with hx | hx
        · exact ih x tb1 tb2 hx h2
        · exact absurd (hx ▸ h2) (hfresh tb2)
    · rw [hother tb1 e1] at h1
      by_cases e2 : tb2 = tb
      · subst e2
        rcases hsub x h2 with hx | hx
        · exact ih x tb1 tb2 h1 hx
        · exact absurd (hx ▸ h1) (hfresh tb1)
      · rw [hother tb2 e2] at h2
        exact ih x tb1 tb2 h1 h2

theorem sampleLoadedRegistry_reachable : Reachable sampleLoadedRegistry :=
  Reachable.step 0 ⟨[(10, sampleAction 1), (11, sampleAction 1), (12, sampleAction 1)], [], []⟩
    (sampleAction 2) (singleNode Table.unique 5) ⟨true, sampleLoadedRegistry, []⟩
    (Reachable.step 3 ⟨[], [], []⟩ (sampleAction 1) (rangeNode Table.item 10 12)
      ⟨true, ⟨[(10, sampleAction 1), (11, sampleAction 1), (12, sampleAction 1)], [], []⟩, []⟩
      Reachable.empty (fun tb => by cases tb <;> decide) (by decide))
    (fun tb => by cases tb <;> decide) (by decide)

/-- C17: on every registry reached from the empty one by `registerEvent` calls
that were each made with a newly created action, no action is referenced from
two different tables, and `clear` leaves the three tables empty and deletes
every action that some slot of some table references exactly once, however
many slots referenced it, and deletes nothing else. -/
theorem clear_deletes_each_action_once (r : Registry) (h : Reachable r) :
    r.separated ∧
    (clear r).registry = ⟨[], [], []⟩ ∧
    (∀ x, r.references x → (clear r).deleted.count x = 1) ∧
    (∀ x, ¬ r.references x → (clear r).deleted.count x = 0) := by
  have hsep := reachable_separated r h
  refine ⟨hsep, ?_⟩
  have hcount : ∀ x, (clear r).deleted.count x =
      (if x ∈ r.useItemMap.addrs then 1 else 0) +
      (if x ∈ r.uniqueItemMap.addrs then 1 else 0) +
      (if x ∈ r.actionItemMap.addrs then 1 else 0) := by
    intro x
    simp only [clear, clearMap, List.count_append, List.count_dedup]
  refine ⟨rfl, ?_, ?_⟩
  · rintro x ⟨tb, hx⟩
    rw [hcount]
    have h12 : x ∈ r.useItemMap.addrs → x ∈ r.uniqueItemMap.addrs → False :=
      fun a b => Table.noConfusion (hsep x Table.item Table.unique a b)
    have h13 : x ∈ r.useItemMap.addrs → x ∈ r.actionItemMap.addrs → False :=
      fun a b => Table.noConfusion (hsep x Table.item Table.action a b)
    have h23 : x ∈ r.uniqueItemMap.addrs → x ∈ r.actionItemMap.addrs → False :=
      fun a b => Table.noConfusion (hsep x Table.unique Table.action a b)
    cases tb
    · have hx1 : x ∈ r.useItemMap.addrs := hx
      have n2 : x ∉ r.uniqueItemMap.addrs := fun b => h12 hx1 b
      have n3 : x ∉ r.actionItemMap.addrs := fun b => h13 hx1 b
      simp [hx1, n2, n3]
    · have hx2 : x ∈ r.uniqueItemMap.addrs := hx
      have n1 : x ∉ r.useItemMap.addrs := fun a => h12 a hx2
      have n3 : x ∉ r.actionItemMap.addrs := fun b => h23 hx2 b
      simp [hx2, n1, n3]
    · have hx3 : x ∈ r.actionItemMap.addrs := hx
      have n1 : x ∉ r.useItemMap.addrs := fun a => h13 a hx3
      have n2 : x ∉ r.uniqueItemMap.addrs := fun a => h23 a hx3
      simp [hx3, n1, n2]
  · intro x hx
    rw [hcount]
    have n1 : x ∉ r.useItemMap.addrs := fun a => hx ⟨Table.item, a⟩
    have n2 : x ∉ r.uniqueItemMap.addrs := fun a => hx ⟨Table.unique, a⟩
    have n3 : x ∉ r.actionItemMap.addrs := fun a => hx ⟨Table.action, a⟩
    simp [n1, n2, n3]

/-- Witness for C17: the action at address 1 is referenced by three slots of the
item-type table and the action at address 2 by one slot of the unique-id
table. -/
theorem clear_deletes_each_action_once_witness :
    sampleLoadedRegistry.separated ∧
    (clear sampleLoadedRegistry).registry = ⟨[], [], []⟩ ∧
    (∀ x, sampleLoadedRegistry.references x →
      (clear sampleLoadedRegistry).deleted.count x = 1) ∧
    (∀ x, ¬ sampleLoadedRegistry.references x →
      (clear sampleLoadedRegistry).deleted.count x = 0) :=
  clear_deletes_each_action_once sampleLoadedRegistry sampleLoadedRegistry_reachable

/-! ## Door gate -/

/-- C18: for an item that is a door whose access check fails for the actor,
`internalUseItem` returns "cannot use this object" with no effect and an
unchanged actor, whatever the registry and the collaborators hold; an accepted
`useItem` call then returns false, its trace is the hotkey message (if asked
for) followed by one cancel message with that code, no handler is invoked, no
built-in rule runs and the actor is changed by the cooldown charge alone. -/
theorem useItem_denied_door (env : Env) (r : Registry) (player : Player) (pos : Position)
    (index : Nat) (item : Item) (isHotkey : Bool) (door : Door)
    (hdoor : item.door = some door) :
    (door.canUse player = false →
      internalUseItem env r player pos index item isHotkey =
        ⟨ReturnValue.RETURNVALUE_CANNOTUSETHISOBJECT, player, []⟩) ∧
    (canDoAction player env.OTSYS_TIME = true →
      door.canUse (chargeCooldown player env.OTSYS_TIME env.ACTIONS_DELAY_INTERVAL) = false →
      (useItem env r player pos index item isHotkey).val = false ∧
      (useItem env r player pos index item isHotkey).trace =
        (if isHotkey then showUseHotkeyMessage env item (env.getItemTypeCount item.ids.id)
          else []) ++
        [Effect.sendCancelMessage ReturnValue.RETURNVALUE_CANNOTUSETHISOBJECT] ∧
      (useItem env r player pos index item isHotkey).player =
        chargeCooldown player env.OTSYS_TIME env.ACTIONS_DELAY_INTERVAL ∧
      (∀ e ∈ (useItem env r player pos index item isHotkey).trace,
        e.isInvocation = false ∧ e.isBuiltin = false)) := by
  have hint : ∀ p : Player, door.canUse p = false →
      internalUseItem env r p pos index item isHotkey =
        ⟨ReturnValue.RETURNVALUE_CANNOTUSETHISOBJECT, p, []⟩ := by
    intro p hp
    rw [internalUseItem_eq]
    simp [doorDenied, hdoor, hp]
  refine ⟨hint player, ?_⟩
  intro hgate hdenied
  have huse : useItem env r player pos index item isHotkey =
      ⟨false, chargeCooldown player env.OTSYS_TIME env.ACTIONS_DELAY_INTERVAL,
        (if isHotkey then showUseHotkeyMessage env item (env.getItemTypeCount item.ids.id)
          else []) ++
        [Effect.sendCancelMessage ReturnValue.RETURNVALUE_CANNOTUSETHISOBJECT]⟩ := by
    rw [useItem_accepted_eq env r player pos index item isHotkey hgate, hint _ hdenied]
    simp
  rw [huse]
  refine ⟨rfl, rfl, rfl, ?_⟩
  intro e he
  simp only [List.mem_append, List.mem_singleton] at he
  rcases he with he | he
  · exact ⟨(hotkey_not_builtin env item isHotkey e he).2.1,
      (hotkey_not_builtin env item isHotkey e he).1⟩
  · subst he
    exact ⟨rfl, rfl⟩

/-- Witness for C18: a locked door that is also a writable container of type
100, with a script registered for type 100 whose callback would succeed. -/
theorem useItem_denied_door_witness :
    (useItem (sampleEnvOk 0) sampleItemRegistry samplePlayer ⟨100, 100, 7⟩ 0
      sampleLockedDoor false).val = false ∧
    (useItem (sampleEnvOk 0) sampleItemRegistry samplePlayer ⟨100, 100, 7⟩ 0
      sampleLockedDoor false).trace =
      (if false then showUseHotkeyMessage (sampleEnvOk 0) sampleLockedDoor
          ((sampleEnvOk 0).getItemTypeCount sampleLockedDoor.ids.id) else []) ++
        [Effect.sendCancelMessage ReturnValue.RETURNVALUE_CANNOTUSETHISOBJECT] ∧
    (useItem (sampleEnvOk 0) sampleItemRegistry samplePlayer ⟨100, 100, 7⟩ 0
      sampleLockedDoor false).player =
      chargeCooldown samplePlayer (sampleEnvOk 0).OTSYS_TIME
        (sampleEnvOk 0).ACTIONS_DELAY_INTERVAL ∧
    (∀ e ∈ (useItem (sampleEnvOk 0) sampleItemRegistry samplePlayer ⟨100, 100, 7⟩ 0
        sampleLockedDoor false).trace,
      e.isInvocation = false ∧ e.isBuiltin = false) :=
  (useItem_denied_door (sampleEnvOk 0) sampleItemRegistry samplePlayer ⟨100, 100, 7⟩ 0
    sampleLockedDoor false ⟨fun _ => false⟩ rfl).2 (by decide) rfl

/-! ## Range loop: termination and reach -/

theorem rangeLoop_top_none (tb : Table) (action : Action) (fromId : Nat) :
    ∀ (fuel : Nat) (m : ActionUseMap) (iterId : Nat) (success : Bool)
      (out : List Diagnostic),
      rangeLoop tb action fromId 65535 fuel m iterId success out = none := by
  intro fuel
  induction fuel with
  | zero =>
    intro m iterId success out
    rfl
  | succ f ih =>
    intro m iterId success out
    have hle : (iterId + 1) % 65536 ≤ 65535 := by omega
    unfold rangeLoop
    simp only [hle, if_true]
    split_ifs
    · exact ih _ _ _ _
    · exact ih _ _ _ _

theorem rangeLoop_exit (tb : Table) (action : Action) (fromId toId fuel : Nat)
    (m : ActionUseMap) (iterId : Nat) (success : Bool) (out : List Diagnostic)
    (hiter : iterId < 65535) (hgt : toId ≤ iterId) :
    rangeLoop tb action fromId toId (fuel + 1) m iterId success out =
      some (m, success, out) := by
  have hmod : (iterId + 1) % 65536 = iterId + 1 := Nat.mod_eq_of_lt (by omega)
  have hnot : ¬ iterId + 1 ≤ toId := by omega
  simp [rangeLoop, hmod, hnot]

theorem registerRangeMap_terminates (tb : Table) (action : Action) (fromId toId : Nat)
    (m : ActionUseMap) (hfrom : fromId < 65536) (hto : toId < 65535) :
    ∃ fuel res, registerRangeMap fuel tb action fromId toId m = some res := by
  have hloop : ∀ (m2 : ActionUseMap) (success : Bool) (out : List Diagnostic),
      ∃ fuel res, rangeLoop tb action fromId toId fuel m2 fromId success out = some res := by
    intro m2 success out
    by_cases hle : fromId ≤ toId
    · obtain ⟨m3, hrun, _⟩ := rangeLoop_spec tb action fromId toId hto (toId - fromId)
        (toId - fromId + 1) m2 fromId success out (by omega) (by omega)
      exact ⟨_, _, hrun⟩
    · by_cases htop : fromId = 65535
      · subst htop
        obtain ⟨m3, hrun, _⟩ := rangeLoop_spec tb action 65535 toId hto toId (toId + 1)
          (if (m2.find 0).isSome then m2 else m2.assign 0 action) 0
          (if (m2.find 0).isSome then success else true)
          (if (m2.find 0).isSome then
            out ++ [Diagnostic.duplicateInRange tb 0 65535 toId] else out)
          (by omega) (by omega)
        have hstep : rangeLoop tb action 65535 toId (toId + 1 + 1) m2 65535 success out =
            rangeLoop tb action 65535 toId (toId + 1)
              (if (m2.find 0).isSome then m2 else m2.assign 0 action) 0
              (if (m2.find 0).isSome then success else true)
              (if (m2.find 0).isSome then
                out ++ [Diagnostic.duplicateInRange tb 0 65535 toId] else out) := by
          by_cases hocc : (m2.find 0).isSome = true
          · simp [rangeLoop, hocc]
          · simp [rangeLoop, hocc]
        exact ⟨toId + 1 + 1, _, hstep.trans hrun⟩
      · exact ⟨1, _, rangeLoop_exit tb action fromId toId 0 m2 fromId success out
          (by omega) (by omega)⟩
  unfold registerRangeMap
  split_ifs
  · exact hloop _ _ _
  · exact hloop _ _ _

/-- C19, evaluated on the failing inputs: with the end bound 65535 the range
branch of `registerEvent` does not return, whatever the start bound, the table
and the fuel: the wrapped counter never exceeds 65535. -/
theorem registerEvent_range_top_never_returns (fuel : Nat) (r : Registry) (action : Action)
    (tb : Table) (fromId : Nat) :
    registerEvent fuel r action (rangeNode tb fromId 65535) = none := by
  rw [registerEvent_rangeNode]
  unfold registerRange registerRangeMap
  split_ifs <;> simp [rangeLoop_top_none]

theorem setTable_table (r : Registry) (tb : Table) : r.setTable tb (r.table tb) = r := by
  cases tb <;> rfl

theorem rangeLoop_changes (tb : Table) (action : Action) (fromId toId : Nat)
    (hto : toId < 65535) :
    ∀ (fuel : Nat) (m : ActionUseMap) (iterId : Nat) (success : Bool)
      (out : List Diagnostic) (res : ActionUseMap × Bool × List Diagnostic),
      iterId < 65535 →
      rangeLoop tb action fromId toId fuel m iterId success out = some res →
      ∀ k, res.1.find k ≠ m.find k → iterId < k ∧ k ≤ toId := by
  intro fuel
  induction fuel with
  | zero =>
    intro m iterId success out res _ h
    simp [rangeLoop] at h
  | succ f ih =>
    intro m iterId success out res hiter h k hk
    have hmod : (iterId + 1) % 65536 = iterId + 1 := Nat.mod_eq_of_lt (by omega)
    unfold rangeLoop at h
    rw [hmod] at h
    split_ifs at h with h1 h2
    · have := ih m (iterId + 1) success _ res (by omega) h k hk
      exact ⟨by omega, this.2⟩
    · by_cases hkk : k = iterId + 1
      · subst hkk
        exact ⟨by omega, h1⟩
      · have hne : res.1.find k ≠ (m.assign (iterId + 1) action).find k := by
          rw [find_assign]
          simpa [hkk] using hk
        have := ih _ (iterId + 1) true out res (by omega) h k hne
        exact ⟨by omega, this.2⟩
    · simp only [Option.some.injEq] at h
      subst h
      exact absurd rfl hk

/-- C20 as stated fails: for the range 12..10 (start above end) on the empty
registry the call returns true and claims key 12, which is outside the empty
range. -/
theorem registerEvent_reversed_range_claims_start :
    ¬ (12 ≤ 10) ∧
    registerEvent 1 emptyRegistry (sampleAction 1) (rangeNode Table.item 12 10) =
      some ⟨true, ⟨[(12, sampleAction 1)], [], []⟩, []⟩ ∧
    (emptyRegistry.table Table.item).find 12 = none := by
  decide

/-- C20, amended: for bounds `fromId` and `toId` below 65535 and any fuel on
which the range registration returns, every key whose entry changed is `fromId`
itself or lies in `fromId..toId`, and the other two tables are unchanged. When
`fromId > toId` only the key `fromId` is attempted: if it is free it is mapped
to the new action and the call returns true without a warning; if it is
occupied the registry is unchanged, one warning is written and the call
returns false. -/
theorem registerEvent_range_reach (fuel : Nat) (r : Registry) (action : Action) (tb : Table)
    (fromId toId : Nat) (res : RegisterResult) (hfrom : fromId < 65535)
    (hto : toId < 65535)
    (hrun : registerEvent fuel r action (rangeNode tb fromId toId) = some res) :
    (∀ k, (res.registry.table tb).find k ≠ (r.table tb).find k →
      k = fromId ∨ (fromId ≤ k ∧ k ≤ toId)) ∧
    (∀ tb2, tb2 ≠ tb → res.registry.table tb2 = r.table tb2) ∧
    (toId < fromId → (r.table tb).find fromId = none →
      res = ⟨true, r.setTable tb ((r.table tb).assign fromId action), []⟩ ∧
      (res.registry.table tb).find fromId = some action) ∧
    (toId < fromId → ((r.table tb).find fromId).isSome = true →
      res = ⟨false, r, [Diagnostic.duplicateInRange tb fromId fromId toId]⟩) := by
  rw [registerEvent_rangeNode] at hrun
  have hother := (registerRange_addrs fuel r tb action fromId toId res hrun).1
  unfold registerRange at hrun
  cases hmap : registerRangeMap fuel tb action fromId toId (r.table tb) with
  | none => simp [hmap] at hrun
  | some out =>
    obtain ⟨m2, success, diag⟩ := out
    simp only [hmap, Option.some.injEq] at hrun
    subst hrun
    obtain ⟨f, rfl⟩ : ∃ f, fuel = f + 1 := by
      cases fuel with
      | zero =>
        unfold registerRangeMap at hmap
        split_ifs at hmap <;> simp [rangeLoop] at hmap
      | succ f => exact ⟨f, rfl⟩
    refine ⟨?_, hother, ?_, ?_⟩
    · intro k hk
      simp only [table_setTable, if_true] at hk
      unfold registerRangeMap at hmap
      split_ifs at hmap with hocc
      · have := rangeLoop_changes tb action fromId toId hto _ _ _ _ _ _ hfrom hmap k hk
        exact Or.inr ⟨by omega, this.2⟩
      · by_cases hkk : k = fromId
        · exact Or.inl hkk
        · have hne : m2.find k ≠ ((r.table tb).assign fromId action).find k := by
            rw [find_assign]
            simpa [hkk] using hk
          have := rangeLoop_changes tb action fromId toId hto _ _ _ _ _ _ hfrom hmap k hne
          exact Or.inr ⟨by omega, this.2⟩
    · intro hrev hfree
      unfold registerRangeMap at hmap
      simp only [hfree, Option.isSome_none, Bool.false_eq_true, if_false] at hmap
      rw [rangeLoop_exit tb action fromId toId f _ fromId true [] hfrom (by omega)] at hmap
      simp only [Option.some.injEq, Prod.mk.injEq] at hmap
      obtain ⟨h1, h2, h3⟩ := hmap
      subst h1 h2 h3
      refine ⟨rfl, ?_⟩
      simp [table_setTable, find_assign]
    · intro hrev hocc
      unfold registerRangeMap at hmap
      simp only [hocc, if_true] at hmap
      rw [rangeLoop_exit tb action fromId toId f _ fromId false _ hfrom (by omega)] at hmap
      simp only [Option.some.injEq, Prod.mk.injEq] at hmap
      obtain ⟨h1, h2, h3⟩ := hmap
      subst h1 h2 h3
      rw [setTable_table]

/-- Witness for C20 (amended): the range 12..10 on the empty registry. -/
theorem registerEvent_range_reach_witness :
    (⟨true, ⟨[(12, sampleAction 1)], [], []⟩, []⟩ : RegisterResult) =
      ⟨true, emptyRegistry.setTable Table.item
        ((emptyRegistry.table Table.item).assign 12 (sampleAction 1)), []⟩ ∧
    ((⟨true, ⟨[(12, sampleAction 1)], [], []⟩, []⟩ : RegisterResult).registry.table
      Table.item).find 12 = some (sampleAction 1) :=
  (registerEvent_range_reach 1 emptyRegistry (sampleAction 1) Table.item 12 10
    ⟨true, ⟨[(12, sampleAction 1)], [], []⟩, []⟩ (by decide) (by decide) (by decide)).2.2.1
    (by decide) (by decide)

end Actions
